import Mathlib

/-!
Verification of the session-clustering core of the Chrome_Extention_History
backend, as implemented by
`app/modules/session_intelligence/infrastructure/clustering_engine.py`
(class ClusteringEngine, the implementation wired into the application
container), together with its persistence layer
(`persistence_mapper.py`, `session_repository.py`, `session_mapper.py`).

Modelling conventions:
* Python floats are modelled exactly: embedding vectors carry rational
  coordinates (`List ℚ`) and cosine similarity is computed in `ℝ`
  (with `Real.sqrt` for the L2 norms, as `np.linalg.norm` does).
* datetimes are opaque and modelled as `Nat`.
* The Embedding Port is an oracle `List String → List (List ℚ)`
  (the response of one `embed_texts` call); the Text-Completion Port is an
  oracle `Option String` (the generated text of the single completion call
  a run makes, `none` meaning the call raised).
* The database is a `Store` value; `BaseRepository._execute` swallows
  database errors (returning `None`).  The only repository failure that
  escapes `SessionPersistenceMapper.save` is `create_session` returning a
  falsy value, which raises `ValueError`; this failure mode is modelled by
  the `createSessionFault` flag of the environment (it also happens
  deterministically when a row with the same unique `session_identifier`
  already exists, per the unique constraint in `database_models.py`).
  Failures of `create_cluster` / `create_history_item` are swallowed inside
  `save` (`continue` / ignored) and are not modelled.
* `json.loads` is modelled by a fuel-based parser for the JSON fragment
  actually exercised by the engine: null, booleans, integers, escape-free
  strings, arrays and objects.  Floats and string escape sequences are not
  modelled.
-/

namespace CEH

/-- One raw history visit, with exactly the fields `ClusteringEngine`
reads (`url`, `title`, `visit_time`, `url_hostname`, `url_pathname_clean`,
`url_search_query`).  A Python `None` title is modelled as `""`, which is
equivalent under the engine's truthiness tests. -/
structure HistoryItem where
  url : String
  title : String
  visit_time : Nat
  url_hostname : Option String
  url_pathname_clean : Option String
  url_search_query : Option String
deriving DecidableEq, Repr, Inhabited

/-- The raw session handed to `cluster_session` (fields the engine reads). -/
structure HistorySession where
  session_identifier : String
  start_time : Nat
  end_time : Nat
  items : List HistoryItem
deriving DecidableEq, Repr

/-- `SemanticGroup` as constructed by `ClusteringEngine._create_groups`. -/
structure SemanticGroup where
  group_key : String
  title : String
  hostname : String
  item_count : Nat
  example_visit_time : Nat
  example_pathname_clean : Option String
  items : List HistoryItem
  embedding : Option (List ℚ)
deriving DecidableEq, Repr

/-- An item of an output cluster (`ClusterItem` in `session_models`),
stamped with its group's embedding by `_decompress`. -/
structure ClusterItem where
  url : String
  title : String
  visit_time : Nat
  url_hostname : Option String
  url_pathname_clean : Option String
  url_search_query : Option String
  embedding : Option (List ℚ)
deriving DecidableEq, Repr

/-- One output cluster (`ClusterResult`). -/
structure ClusterResult where
  cluster_id : String
  theme : String
  summary : String
  items : List ClusterItem
  embedding : Option (List ℚ)
deriving DecidableEq, Repr

/-- The per-session output (`SessionClusteringResponse`), the unit that is
cached and persisted. -/
structure SessionClusteringResponse where
  session_identifier : String
  session_start_time : Nat
  session_end_time : Nat
  clusters : List ClusterResult
deriving DecidableEq, Repr

/-- Whitespace for the purposes of Python `str.strip()` (ASCII fragment). -/
def isPyWs (c : Char) : Bool :=
  c == ' ' || c == '\t' || c == '\n' || c == '\r'

/-- Python `str.strip()`, implemented on the character list. -/
def pyStrip (s : String) : String :=
  String.mk (((s.data.dropWhile isPyWs).reverse.dropWhile isPyWs).reverse)

/-- Python slicing `s[:n]`, implemented on the character list. -/
def strTake (s : String) (n : Nat) : String :=
  String.mk (s.data.take n)

/-- The id of the hardcoded fallback cluster `GENERIC_CLUSTER`. -/
def genericId : String := "cluster_generic"

/-- Theme of `GENERIC_CLUSTER`. -/
def genericTheme : String := "General Browsing"

/-- Summary of `GENERIC_CLUSTER`. -/
def genericSummary : String := "Miscellaneous browsing activity."

/-- The configured similarity threshold
(`settings.clustering_similarity_threshold = 0.35`). -/
def clustering_similarity_threshold : ℚ := 35 / 100

/-! ### Group compressor (`ClusteringEngine._create_groups`) -/

/-- The dictionary key computed for one item, together with the updated
no-title counter: `f"{title}::{hostname}"` for a non-empty stripped title,
`f"__notitle__{no_title_counter}::{hostname}"` otherwise. -/
def groupKey (counter : Nat) (it : HistoryItem) : String × Nat :=
  let title := pyStrip it.title
  let hostname := it.url_hostname.getD ""
  if title = "" then
    ("__notitle__" ++ Nat.repr counter ++ "::" ++ hostname, counter + 1)
  else
    (title ++ "::" ++ hostname, counter)

/-- `groups.setdefault(key, []).append(item)` on an insertion-ordered
association list: append to the entry with this key, or create a new entry
at the end. -/
def insertItem (acc : List (String × List HistoryItem)) (key : String)
    (it : HistoryItem) : List (String × List HistoryItem) :=
  match acc with
  | [] => [(key, [it])]
  | (k, its) :: rest =>
    if k = key then (k, its ++ [it]) :: rest
    else (k, its) :: insertItem rest key it

/-- The grouping loop of `_create_groups`: fold every item into the
insertion-ordered dictionary, threading the no-title counter. -/
def buildGroups : List HistoryItem → Nat → List (String × List HistoryItem) →
    List (String × List HistoryItem)
  | [], _, acc => acc
  | it :: rest, counter, acc =>
    let kc := groupKey counter it
    buildGroups rest kc.2 (insertItem acc kc.1 it)

/-- The sequence of keys generated for the items of a session, in order,
threading the no-title counter exactly as the grouping loop does. -/
def keySeq : List HistoryItem → Nat → List String
  | [], _ => []
  | it :: rest, counter =>
    let kc := groupKey counter it
    kc.1 :: keySeq rest kc.2

/-- First-occurrence ordering of a list of keys (used only in theorem
statements, to express the output order of the compressor). -/
def firstOccur (keys : List String) : List String :=
  keys.foldl (fun ks k => if ks.contains k then ks else ks ++ [k]) []

/-- The decimal digit characters of a natural number, most significant
first: the specification of `Nat.repr`, used to reason about the
synthetic no-title keys. -/
def natChars (n : Nat) : List Char :=
  if _h : n < 10 then [Nat.digitChar n]
  else natChars (n / 10) ++ [Nat.digitChar (n % 10)]
decreasing_by exact Nat.div_lt_self (by omega) (by omega)

/-- Invariant of the grouping dictionary while scanning a session whose
stripped titles never start with the synthetic-key marker: every entry
either is a singleton holding one untitled item under a synthetic key
minted below the current counter, or holds only titled items under a key
that does not start with the marker. -/
def UntitledInv (counter : Nat) (kv : String × List HistoryItem) : Prop :=
  (∃ n h, n < counter ∧ kv.1 = "__notitle__" ++ Nat.repr n ++ "::" ++ h ∧
    ∃ it0, kv.2 = [it0] ∧ pyStrip it0.title = "") ∨
  ((∀ it2 ∈ kv.2, pyStrip it2.title ≠ "") ∧
    ("__notitle__".data.isPrefixOf kv.1.data) = false)

/-- Materialise one dictionary entry as a `SemanticGroup`, taking the first
item of the entry as the representative example. -/
def toSemanticGroup (kv : String × List HistoryItem) : SemanticGroup :=
  let first := kv.2.headD default
  { group_key := kv.1
    title := pyStrip first.title
    hostname := first.url_hostname.getD ""
    item_count := kv.2.length
    example_visit_time := first.visit_time
    example_pathname_clean := first.url_pathname_clean
    items := kv.2
    embedding := none }

/-- `ClusteringEngine._create_groups`. -/
def _create_groups (session : HistorySession) : List SemanticGroup :=
  (buildGroups session.items 0 []).map toSemanticGroup

/-! ### Result store
(`SessionRepository` over the SQLAlchemy models, plus
`SessionPersistenceMapper` and `SessionMapper`). -/

/-- A persisted history item row (`history_items` table, the columns
`create_history_item` fills; `raw_semantics` is inlined as its two keys). -/
structure ItemRecord where
  url : String
  title : String
  domain : Option String
  visit_time : Nat
  url_pathname_clean : Option String
  url_search_query : Option String
  embedding : Option (List ℚ)
deriving DecidableEq, Repr

/-- A persisted cluster row together with its items. -/
structure ClusterRecord where
  id : Nat
  name : String
  description : String
  embedding : Option (List ℚ)
  items : List ItemRecord
deriving DecidableEq, Repr

/-- A persisted session row together with its clusters (the graph that
`get_session_graph` loads). -/
structure SessionRecord where
  id : Nat
  user_id : Nat
  session_identifier : String
  start_time : Nat
  end_time : Nat
  clusters : List ClusterRecord
deriving DecidableEq, Repr

/-- The database state: the session rows (with their cascaded clusters and
items) and the next autoincrement id. -/
structure Store where
  sessions : List SessionRecord
  nextId : Nat
deriving DecidableEq, Repr

/-- Python `x or None` on an optional list: both `None` and `[]` are falsy
and become `None` (used by `save` for embeddings). -/
def orNone (e : Option (List ℚ)) : Option (List ℚ) :=
  match e with
  | none => none
  | some v => if v = [] then none else some v

/-- `delete_session_by_identifier`: `.first()` match deleted (cascading to
its clusters and items); no-op when absent. -/
def eraseFirstByIdentifier : List SessionRecord → String → List SessionRecord
  | [], _ => []
  | r :: rs, ident =>
    if r.session_identifier = ident then rs
    else r :: eraseFirstByIdentifier rs ident

/-- Number of session rows stored under one identifier. -/
def countId (st : Store) (ident : String) : Nat :=
  (st.sessions.filter (fun r => r.session_identifier = ident)).length

/-- The session row (with its cascaded cluster and item rows) inserted by
one successful `save`, given the autoincrement id it receives. -/
def newSessionRecord (sid : Nat) (user_id : Nat) (resp : SessionClusteringResponse) :
    SessionRecord :=
  { id := sid
    user_id := user_id
    session_identifier := resp.session_identifier
    start_time := resp.session_start_time
    end_time := resp.session_end_time
    clusters := (resp.clusters.enum).map (fun ic =>
      { id := sid + 1 + ic.1
        name := ic.2.theme
        description := ic.2.summary
        embedding := orNone ic.2.embedding
        items := ic.2.items.map (fun item =>
          { url := item.url
            title := item.title
            domain := item.url_hostname
            visit_time := item.visit_time
            url_pathname_clean := item.url_pathname_clean
            url_search_query := item.url_search_query
            embedding := orNone item.embedding }) }) }

/-- `SessionPersistenceMapper.save`.  Returns the updated store and
`some session_id` on success, or `none` when `create_session` failed and
the mapper raised `ValueError` (the store then reflects the already
committed delete).  `create_session` fails when the injected fault is set
or when a row with the same unique `session_identifier` already exists. -/
def savePM (fault : Bool) (st : Store) (user_id : Nat)
    (resp : SessionClusteringResponse) (replace_if_exists : Bool) :
    Store × Option Nat :=
  let st1 : Store :=
    if replace_if_exists then
      { st with sessions := eraseFirstByIdentifier st.sessions resp.session_identifier }
    else st
  if fault ∨ st1.sessions.any (fun r => r.session_identifier = resp.session_identifier) then
    (st1, none)
  else
    ({ sessions := st1.sessions ++ [newSessionRecord st1.nextId user_id resp]
       nextId := st1.nextId + 1 + resp.clusters.length }, some st1.nextId)

/-- `SessionRepository.get_session_graph`: first row with the identifier. -/
def get_session_graph (st : Store) (ident : String) : Option SessionRecord :=
  st.sessions.find? (fun r => r.session_identifier = ident)

/-- `SessionMapper.to_clustering_response`, reconstructing a
`SessionClusteringResponse` from a stored session graph. -/
def to_clustering_response (rec : SessionRecord) : SessionClusteringResponse :=
  { session_identifier := rec.session_identifier
    session_start_time := rec.start_time
    session_end_time := rec.end_time
    clusters := rec.clusters.map (fun c =>
      { cluster_id := "cluster_" ++ Nat.repr c.id
        theme := if c.name = "" then "Untitled" else c.name
        summary := c.description
        items := c.items.map (fun it =>
          { url := it.url
            title := if it.title = "" then "Untitled" else it.title
            visit_time := it.visit_time
            url_hostname := it.domain
            url_pathname_clean := it.url_pathname_clean
            url_search_query := it.url_search_query
            embedding := it.embedding })
        embedding := c.embedding }) }

/-- `SessionPersistenceMapper.load`. -/
def loadPM (st : Store) (ident : String) : Option SessionClusteringResponse :=
  (get_session_graph st ident).map to_clustering_response

/-! ### JSON (model of `json.loads` on the fragment the engine exercises) -/

/-- A decoded JSON value.  Numbers are restricted to integers (the engine
never relies on float payloads). -/
inductive JValue where
  | null : JValue
  | bool (b : Bool) : JValue
  | num (n : Int) : JValue
  | str (s : String) : JValue
  | arr (elems : List JValue) : JValue
  | obj (fields : List (String × JValue)) : JValue
deriving Inhabited

/-- Skip JSON whitespace. -/
def skipWs : List Char → List Char
  | [] => []
  | c :: cs => if c = ' ' ∨ c = '\n' ∨ c = '\t' ∨ c = '\r' then skipWs cs else c :: cs

/-- Parse the body of a string literal after the opening quote (escape
sequences are not modelled and make the parse fail). -/
def parseStringAux : List Char → List Char → Option (String × List Char)
  | [], _ => none
  | c :: rest, acc =>
    if c = '"' then some (String.mk acc.reverse, rest)
    else if c = '\\' then none
    else parseStringAux rest (c :: acc)

/-- Parse a nonempty run of decimal digits as a natural number. -/
def parseNatNum (cs : List Char) : Option (Nat × List Char) :=
  let ds := cs.takeWhile Char.isDigit
  if ds.isEmpty then none
  else some (ds.foldl (fun a c => 10 * a + (c.toNat - 48)) 0, cs.drop ds.length)

/-- Match a literal character sequence. -/
def matchLit (lit : List Char) (cs : List Char) : Option (List Char) :=
  if lit.isPrefixOf cs then some (cs.drop lit.length) else none

mutual

/-- Recursive-descent JSON value at the head of the input (fuel-bounded). -/
def parseValue : Nat → List Char → Option (JValue × List Char)
  | 0, _ => none
  | fuel + 1, cs =>
    match cs with
    | [] => none
    | c :: rest =>
      if c = '"' then (parseStringAux rest []).map (fun p => (JValue.str p.1, p.2))
      else if c = '[' then
        match skipWs rest with
        | ']' :: cs2 => some (JValue.arr [], cs2)
        | cs1 => (parseElems fuel cs1).map (fun p => (JValue.arr p.1, p.2))
      else if c = '\x7b' then
        match skipWs rest with
        | '\x7d' :: cs2 => some (JValue.obj [], cs2)
        | cs1 => (parseFields fuel cs1).map (fun p => (JValue.obj p.1, p.2))
      else if c = 't' then (matchLit ['r', 'u', 'e'] rest).map (fun r => (JValue.bool true, r))
      else if c = 'f' then (matchLit ['a', 'l', 's', 'e'] rest).map (fun r => (JValue.bool false, r))
      else if c = 'n' then (matchLit ['u', 'l', 'l'] rest).map (fun r => (JValue.null, r))
      else if c = '-' then (parseNatNum rest).map (fun p => (JValue.num (-(p.1 : Int)), p.2))
      else if c.isDigit then (parseNatNum cs).map (fun p => (JValue.num (p.1 : Int), p.2))
      else none

/-- Comma-separated array elements up to the closing bracket; the input
starts at a value. -/
def parseElems : Nat → List Char → Option (List JValue × List Char)
  | 0, _ => none
  | fuel + 1, cs =>
    match parseValue fuel cs with
    | none => none
    | some (v, cs2) =>
      match skipWs cs2 with
      | ',' :: cs3 =>
        match parseElems fuel (skipWs cs3) with
        | some (vs, cs4) => some (v :: vs, cs4)
        | none => none
      | ']' :: cs3 => some ([v], cs3)
      | _ => none

/-- Comma-separated object fields up to the closing brace; the input
starts at a key string. -/
def parseFields : Nat → List Char → Option (List (String × JValue) × List Char)
  | 0, _ => none
  | fuel + 1, cs =>
    match cs with
    | '"' :: rest =>
      match parseStringAux rest [] with
      | none => none
      | some (k, cs2) =>
        match skipWs cs2 with
        | ':' :: cs3 =>
          match parseValue fuel (skipWs cs3) with
          | none => none
          | some (v, cs4) =>
            match skipWs cs4 with
            | ',' :: cs5 =>
              match parseFields fuel (skipWs cs5) with
              | some (kvs, cs6) => some ((k, v) :: kvs, cs6)
              | none => none
            | '\x7d' :: cs5 => some ([(k, v)], cs5)
            | _ => none
        | _ => none
    | _ => none

end

/-- Model of `json.loads`: parse one value and require only whitespace to
remain (the fuel bound is generous for the input length). -/
def json_loads (s : String) : Option JValue :=
  match parseValue (2 * s.length + 2) (skipWs s.data) with
  | some (v, restC) => if skipWs restC = [] then some v else none
  | none => none

/-- Python truthiness of a decoded JSON value. -/
def jTruthy : JValue → Bool
  | JValue.null => false
  | JValue.bool b => b
  | JValue.num n => n != 0
  | JValue.str s => s != ""
  | JValue.arr xs => !xs.isEmpty
  | JValue.obj kvs => !kvs.isEmpty

/-- Python `dict.get(key)` with `None` default on a decoded object; the
last occurrence of a duplicated key wins, as in `json.loads`. -/
def jGet (fields : List (String × JValue)) (key : String) : JValue :=
  match fields.reverse.find? (fun kv => kv.1 = key) with
  | some kv => kv.2
  | none => JValue.null

mutual

/-- Python `str()` of a decoded JSON value. -/
def pyStr : JValue → String
  | JValue.null => "None"
  | JValue.bool true => "True"
  | JValue.bool false => "False"
  | JValue.num n => if n < 0 then "-" ++ Nat.repr (-n).toNat else Nat.repr n.toNat
  | JValue.str s => s
  | JValue.arr xs => "[" ++ pyReprList xs ++ "]"
  | JValue.obj kvs => "\x7b" ++ pyReprFields kvs ++ "\x7d"

/-- Python `repr()` of a decoded JSON value (differs from `str` only on
strings, which get quoted). -/
def pyRepr : JValue → String
  | JValue.null => "None"
  | JValue.bool true => "True"
  | JValue.bool false => "False"
  | JValue.num n => if n < 0 then "-" ++ Nat.repr (-n).toNat else Nat.repr n.toNat
  | JValue.str s => "\x27" ++ s ++ "\x27"
  | JValue.arr xs => "[" ++ pyReprList xs ++ "]"
  | JValue.obj kvs => "\x7b" ++ pyReprFields kvs ++ "\x7d"

/-- Comma-joined reprs of list elements. -/
def pyReprList : List JValue → String
  | [] => ""
  | [x] => pyRepr x
  | x :: y :: xs => pyRepr x ++ ", " ++ pyReprList (y :: xs)

/-- Comma-joined reprs of object fields. -/
def pyReprFields : List (String × JValue) → String
  | [] => ""
  | [(k, v)] => "\x27" ++ k ++ "\x27: " ++ pyRepr v
  | (k, v) :: kv2 :: kvs => "\x27" ++ k ++ "\x27: " ++ pyRepr v ++ ", " ++ pyReprFields (kv2 :: kvs)

end

/-! ### Theme discovery (`_identify_clusters`, `_extract_json`) -/

/-- Python `text.find(c)` on a character list (`-1` when absent). -/
def pyFindIdx (cs : List Char) (c : Char) : Int :=
  match cs.findIdx? (fun x => x = c) with
  | some i => (i : Int)
  | none => -1

/-- Python `text.rfind(c)` on a character list (`-1` when absent). -/
def pyRFindIdx (cs : List Char) (c : Char) : Int :=
  match cs.reverse.findIdx? (fun x => x = c) with
  | some i => ((cs.length - 1 - i : Nat) : Int)
  | none => -1

/-- `ClusteringEngine._extract_json`: direct decode, then the
first-bracket-to-last-bracket substring; `none` models a raised error. -/
def _extract_json (text : String) : Option JValue :=
  let t := pyStrip text
  match json_loads t with
  | some v => some v
  | none =>
    let cs := t.data
    let fB := pyFindIdx cs '['
    let fC := pyFindIdx cs '\x7b'
    let start_idx : Int :=
      if fB = -1 ∧ fC = -1 then -1
      else if fB = -1 then fC
      else if fC = -1 then fB
      else min fB fC
    if start_idx = -1 then none
    else
      let eB := pyRFindIdx cs ']'
      let eC := pyRFindIdx cs '\x7d'
      let end_idx := max eB eC
      if end_idx = -1 ∨ end_idx ≤ start_idx then none
      else json_loads (String.mk ((cs.drop start_idx.toNat).take (end_idx.toNat + 1 - start_idx.toNat)))

/-- An LLM-proposed theme after defensive parsing (a cleaned element of
`clusters_meta`); `embedding` is `none` until `_embed_clusters` sets it. -/
structure ClusterMeta where
  cluster_id : String
  theme : String
  summary : String
  embedding : Option (List ℚ)
deriving DecidableEq, Repr

/-- The cleaning loop of `_identify_clusters`: keep dict elements, default
a falsy `cluster_id` to `cluster_{idx+1}`, drop the reserved generic id,
stringify `theme` (default `Miscellaneous`) and `summary` (default empty). -/
def cleanCandidates (data : List JValue) : List ClusterMeta :=
  data.enum.filterMap (fun iv =>
    match iv.2 with
    | JValue.obj fields =>
      let cidV := jGet fields "cluster_id"
      let cid := if jTruthy cidV then pyStr cidV else "cluster_" ++ Nat.repr (iv.1 + 1)
      if cid = genericId then none
      else
        let themeV := jGet fields "theme"
        let sumV := jGet fields "summary"
        some { cluster_id := cid
               theme := if jTruthy themeV then pyStr themeV else "Miscellaneous"
               summary := if jTruthy sumV then pyStr sumV else ""
               embedding := none }
    | _ => none)

/-- `ClusteringEngine._identify_clusters`.  The argument is the outcome of
the single completion call (`none` when the call raised); any parse
failure or non-list payload degrades to the empty candidate list. -/
def _identify_clusters (llmText : Option String) : List ClusterMeta :=
  match llmText with
  | none => []
  | some text =>
    match _extract_json (pyStrip text) with
    | some (JValue.arr data) => cleanCandidates data
    | _ => []

/-! ### Embedding steps (`_embed_groups`, `_embed_clusters`) -/

/-- `group.title or group.hostname`. -/
def groupEmbedText (g : SemanticGroup) : String :=
  if g.title = "" then g.hostname else g.title

/-- The texts sent to the Embedding Port for the embeddable groups, in
group order, truncated to 1200 characters. -/
def embedGroupTexts (groups : List SemanticGroup) : List String :=
  groups.filterMap (fun g =>
    let t := groupEmbedText g
    if t = "" then none else some (strTake t 1200))

/-- Positional reassignment of the returned vectors to the embeddable
groups (`zip(indices, vectors)`); an empty vector yields no embedding, and
groups beyond the returned vectors are left untouched. -/
def assignGroupVectors : List SemanticGroup → List (List ℚ) → List SemanticGroup
  | [], _ => []
  | g :: gs, vs =>
    if groupEmbedText g = "" then g :: assignGroupVectors gs vs
    else
      match vs with
      | [] => g :: assignGroupVectors gs []
      | v :: vtl =>
        { g with embedding := if v = [] then none else some v } :: assignGroupVectors gs vtl

/-- `ClusteringEngine._embed_groups`; also returns how many Embedding Port
calls were made (one when there is at least one embeddable text). -/
def _embed_groups (embed : List String → List (List ℚ)) (groups : List SemanticGroup) :
    List SemanticGroup × Nat :=
  let texts := embedGroupTexts groups
  if texts = [] then (groups, 0)
  else (assignGroupVectors groups (embed texts), 1)

/-- The embedding text of a candidate: `"{theme} - {summary}"`, stripped
and truncated. -/
def clusterEmbedText (c : ClusterMeta) : String :=
  strTake (pyStrip (c.theme ++ " - " ++ c.summary)) 1200

/-- Positional `zip(clusters_meta, vectors)` assignment; an empty vector is
stored as an empty embedding (`vector if vector else []`). -/
def assignClusterVectors : List ClusterMeta → List (List ℚ) → List ClusterMeta
  | [], _ => []
  | ms, [] => ms
  | m :: ms, v :: vs => { m with embedding := some v } :: assignClusterVectors ms vs

/-- `ClusteringEngine._embed_clusters`, with its Embedding Port call count
(zero on an empty candidate list). -/
def _embed_clusters (embed : List String → List (List ℚ)) (metas : List ClusterMeta) :
    List ClusterMeta × Nat :=
  if metas = [] then (metas, 0)
  else (assignClusterVectors metas (embed (metas.map clusterEmbedText)), 1)

/-! ### Cosine similarity and group assignment -/

/-- `np.dot` on rational vectors. -/
def dotQ (a b : List ℚ) : ℚ := (List.zipWith (fun x y => x * y) a b).sum

/-- `np.linalg.norm`: the L2 norm, as a real number. -/
noncomputable def l2norm (a : List ℚ) : ℝ := Real.sqrt ((dotQ a a : ℚ) : ℝ)

/-- The module-level `cosine_similarity` of `clustering_engine.py`:
`0.0` when either norm is zero, else dot over product of norms. -/
noncomputable def cosine_similarity (a b : List ℚ) : ℝ :=
  if l2norm a = 0 ∨ l2norm b = 0 then 0
  else ((dotQ a b : ℚ) : ℝ) / (l2norm a * l2norm b)

/-- Truthiness of an embedding slot (`c.get("embedding")`):
present and non-empty. -/
def embTruthy (e : Option (List ℚ)) : Bool :=
  match e with
  | none => false
  | some v => !v.isEmpty

/-- The inner loop of `_assign_groups`: running best cluster id and best
similarity, started at the generic id and `-1.0`, updated on strict
improvement. -/
noncomputable def bestCluster (e : List ℚ) (valid : List ClusterMeta) : String × ℝ :=
  valid.foldl
    (fun best c =>
      let sim := cosine_similarity e (c.embedding.getD [])
      if sim > best.2 then (c.cluster_id, sim) else best)
    (genericId, -1)

/-- The per-group decision of `_assign_groups`: the generic bucket for a
group with a falsy embedding, else the best candidate when the best
similarity reaches the threshold. -/
noncomputable def assignTarget (valid : List ClusterMeta) (g : SemanticGroup) : String :=
  match g.embedding with
  | none => genericId
  | some e =>
    if e = [] then genericId
    else
      let best := bestCluster e valid
      if best.2 ≥ ((clustering_similarity_threshold : ℚ) : ℝ) then best.1 else genericId

/-- Add a key with an empty group list unless present (dict-comprehension
and key-assignment semantics for building `cluster_map`). -/
def dictAddEmpty (m : List (String × List SemanticGroup)) (k : String) :
    List (String × List SemanticGroup) :=
  if (m.map Prod.fst).contains k then m else m ++ [(k, [])]

/-- `cluster_map[key].append(group)` on the insertion-ordered map. -/
def appendAt (m : List (String × List SemanticGroup)) (k : String) (g : SemanticGroup) :
    List (String × List SemanticGroup) :=
  match m with
  | [] => []
  | (k2, gs) :: rest =>
    if k2 = k then (k2, gs ++ [g]) :: rest else (k2, gs) :: appendAt rest k g

/-- The initial `cluster_map`: one empty entry per candidate id, then the
generic id. -/
def dictInit (metas : List ClusterMeta) : List (String × List SemanticGroup) :=
  dictAddEmpty (metas.foldl (fun m c => dictAddEmpty m c.cluster_id) []) genericId

/-- `ClusteringEngine._assign_groups`. -/
noncomputable def _assign_groups (groups : List SemanticGroup) (metas : List ClusterMeta) :
    List (String × List SemanticGroup) :=
  let valid := metas.filter (fun c => embTruthy c.embedding)
  groups.foldl (fun m g => appendAt m (assignTarget valid g) g) (dictInit metas)

/-! ### Decompression and response assembly -/

/-- Project a raw item into a `ClusterItem` stamped with its group's
embedding. -/
def stampItem (e : Option (List ℚ)) (it : HistoryItem) : ClusterItem :=
  { url := it.url
    title := it.title
    visit_time := it.visit_time
    url_hostname := it.url_hostname
    url_pathname_clean := it.url_pathname_clean
    url_search_query := it.url_search_query
    embedding := e }

/-- The items of a list of groups, each stamped with its own group's
embedding, in group order (the per-key body of `_decompress`). -/
def stampedItems (gs : List SemanticGroup) : List ClusterItem :=
  (gs.map (fun g => g.items.map (stampItem g.embedding))).flatten

/-- `ClusteringEngine._decompress`. -/
def _decompress (cmap : List (String × List SemanticGroup)) :
    List (String × List ClusterItem) :=
  cmap.map (fun kv => (kv.1, stampedItems kv.2))

/-- `cluster_to_items.get(cid, [])`. -/
def lookupD (m : List (String × List ClusterItem)) (k : String) : List ClusterItem :=
  match m.find? (fun kv => kv.1 = k) with
  | some kv => kv.2
  | none => []

/-- The response-assembly loop of `cluster_session`: one `ClusterResult`
per candidate with a nonempty item list (carrying the candidate's
embedding), then the generic bucket if nonempty (with no embedding). -/
def buildClusterResults (metas : List ClusterMeta)
    (citems : List (String × List ClusterItem)) : List ClusterResult :=
  (metas.filterMap (fun m =>
    if lookupD citems m.cluster_id = [] then none
    else some { cluster_id := m.cluster_id, theme := m.theme, summary := m.summary,
                items := lookupD citems m.cluster_id, embedding := m.embedding }))
  ++ (if lookupD citems genericId = [] then []
      else [{ cluster_id := genericId, theme := genericTheme, summary := genericSummary,
              items := lookupD citems genericId, embedding := none }])

/-! ### Orchestrator (`ClusteringEngine.cluster_session`) -/

/-- The external collaborators of one run: the Embedding Port response
function, the text produced by the single completion call (`none` when the
call raises), and whether `create_session` fails in the database. -/
structure Env where
  embed : List String → List (List ℚ)
  llm : Option String
  createSessionFault : Bool

instance : DecidableEq (Except Unit SessionClusteringResponse) := fun a b =>
  match a, b with
  | Except.ok x, Except.ok y =>
    if h : x = y then isTrue (by rw [h]) else isFalse (fun hc => h (by injection hc))
  | Except.error x, Except.error y =>
    if h : x = y then isTrue (by rw [h]) else isFalse (fun hc => h (by injection hc))
  | Except.ok _, Except.error _ => isFalse (fun hc => by injection hc)
  | Except.error _, Except.ok _ => isFalse (fun hc => by injection hc)

/-- The observable outcome of one `cluster_session` call: the returned
response (or the propagated persistence error), the database state
afterwards, and how many port calls were made. -/
structure RunOutcome where
  result : Except Unit SessionClusteringResponse
  store : Store
  embedCalls : Nat
  llmCalls : Nat
deriving DecidableEq

/-- The canonical session identity `f"u{user_id}:{session.session_identifier}"`. -/
def canonicalIdentifier (user_id : Nat) (session : HistorySession) : String :=
  "u" ++ Nat.repr user_id ++ ":" ++ session.session_identifier

/-- The pipeline of the cache-miss path of `cluster_session`: compress,
embed groups, discover and embed themes, assign, decompress, assemble the
output cluster list.  Also returns the number of Embedding Port calls
made. -/
noncomputable def computeClusters (env : Env) (session : HistorySession) :
    List ClusterResult × Nat :=
  let ge := _embed_groups env.embed (_create_groups session)
  let ce := _embed_clusters env.embed (_identify_clusters env.llm)
  let citems := _decompress (_assign_groups ge.1 ce.1)
  (buildClusterResults ce.1 citems, ge.2 + ce.2)

/-- The `SessionClusteringResponse` computed on the cache-miss path. -/
noncomputable def computeResponse (env : Env) (session : HistorySession) (user_id : Nat) :
    SessionClusteringResponse :=
  { session_identifier := canonicalIdentifier user_id session
    session_start_time := session.start_time
    session_end_time := session.end_time
    clusters := (computeClusters env session).1 }

/-- The cache-miss path of `cluster_session`: compute the response, persist
it with `replace_if_exists = force`, and return it on success; a `save`
failure (a raised `ValueError`) propagates as the error result. -/
noncomputable def computePath (env : Env) (store : Store) (session : HistorySession)
    (user_id : Nat) (force : Bool) : RunOutcome :=
  let response := computeResponse env session user_id
  let saved := savePM env.createSessionFault store user_id response force
  { result := if saved.2.isSome then Except.ok response else Except.error ()
    store := saved.1
    embedCalls := (computeClusters env session).2
    llmCalls := 1 }

/-- `ClusteringEngine.cluster_session`: the cache check (`force = false`
only), then the compute path. -/
noncomputable def cluster_session (env : Env) (store : Store) (session : HistorySession)
    (user_id : Nat) (force : Bool) : RunOutcome :=
  match (if force then none else loadPM store (canonicalIdentifier user_id session)) with
  | some cached => { result := Except.ok cached, store := store, embedCalls := 0, llmCalls := 0 }
  | none => computePath env store session user_id force

/-- Projection of a `ClusterItem` back onto its raw item (drops the
stamped embedding); used in theorem statements. -/
def projItem (ci : ClusterItem) : HistoryItem :=
  { url := ci.url
    title := ci.title
    visit_time := ci.visit_time
    url_hostname := ci.url_hostname
    url_pathname_clean := ci.url_pathname_clean
    url_search_query := ci.url_search_query }

/-- The completion call raised, or no JSON list can be recovered from its
text by the defensive extractor (hypothesis of the degradation claim). -/
def noRecoverableList (llmText : Option String) : Bool :=
  match llmText with
  | none => true
  | some t =>
    match _extract_json (pyStrip t) with
    | some (JValue.arr _) => false
    | _ => true

/-! ### Concrete instances used in witnesses and counterexamples -/

/-- A titled item. -/
def witItemA : HistoryItem :=
  { url := "https://x.com/a", title := "a", visit_time := 0, url_hostname := some "h",
    url_pathname_clean := none, url_search_query := none }

/-- An item whose title strips to empty. -/
def witItemNoTitle : HistoryItem :=
  { url := "https://y.com/b", title := " ", visit_time := 1, url_hostname := some "h",
    url_pathname_clean := none, url_search_query := none }

/-- An item whose literal title collides with the first synthetic
no-title key. -/
def witItemCollide : HistoryItem :=
  { url := "https://x.com/c", title := "__notitle__0", visit_time := 2, url_hostname := some "h",
    url_pathname_clean := none, url_search_query := none }

/-- A one-item session. -/
def witSessionA : HistorySession :=
  { session_identifier := "s1", start_time := 0, end_time := 9, items := [witItemA] }

/-- A session whose only item has a whitespace title. -/
def witSessionUntitled : HistorySession :=
  { session_identifier := "s3", start_time := 0, end_time := 9, items := [witItemNoTitle] }

/-- The collision session: a titled item named like a synthetic key,
followed by an untitled item on the same hostname. -/
def witSessionCollide : HistorySession :=
  { session_identifier := "s2", start_time := 0, end_time := 9,
    items := [witItemCollide, witItemNoTitle] }

/-- Ports that return nothing; no database fault. -/
def witEnvNone : Env :=
  { embed := fun _ => [], llm := none, createSessionFault := false }

/-- Ports that return nothing; `create_session` fails. -/
def witEnvFault : Env :=
  { embed := fun _ => [], llm := none, createSessionFault := true }

/-- The completion call returns unparseable text. -/
def witEnvNotJson : Env :=
  { embed := fun _ => [], llm := some "not json", createSessionFault := false }

/-- The completion call proposes two themes with the same cluster id, and
the Embedding Port answers every text with the vector `[1]`. -/
def witEnvDupId : Env :=
  { embed := fun ts => ts.map (fun _ => [1])
    llm := some "[\x7b\"cluster_id\": \"a\"\x7d, \x7b\"cluster_id\": \"a\"\x7d]"
    createSessionFault := false }

/-- The theme candidate discovered twice from `witEnvDupId`'s completion
text, after candidate embedding: id `"a"`, default theme and summary,
embedded to `[1]`. -/
def dupMeta : ClusterMeta :=
  { cluster_id := "a", theme := "Miscellaneous", summary := "", embedding := some [1] }

/-- The single semantic group of `witSessionA` after group embedding under
`witEnvDupId`'s Embedding Port. -/
def dupGroup : SemanticGroup :=
  { group_key := "a::h", title := "a", hostname := "h", item_count := 1,
    example_visit_time := 0, example_pathname_clean := none, items := [witItemA],
    embedding := some [1] }

/-- The `ClusterResult` that the duplicated candidate id causes to be
emitted twice: both copies carry the same single stamped item. -/
def dupCluster : ClusterResult :=
  { cluster_id := "a", theme := "Miscellaneous", summary := "",
    items := [stampItem (some [1]) witItemA], embedding := some [1] }

/-- The empty store. -/
def witStoreEmpty : Store := { sessions := [], nextId := 0 }

/-- A stored session graph under the canonical identity of user 1 and
client session `s1`. -/
def witRecord : SessionRecord :=
  { id := 3, user_id := 1, session_identifier := "u1:s1", start_time := 0, end_time := 9,
    clusters := [{ id := 4, name := "T", description := "D", embedding := some [1],
                   items := [{ url := "https://x.com/a", title := "a", domain := some "h",
                               visit_time := 5, url_pathname_clean := none,
                               url_search_query := none, embedding := some [2] }] }] }

/-- A store already holding `witRecord`. -/
def witStoreHit : Store := { sessions := [witRecord], nextId := 5 }

/-! ## Lemmas: the group compressor partitions the input -/

theorem insertItem_flatten (acc : List (String × List HistoryItem)) (key : String)
    (it : HistoryItem) :
    List.Perm ((insertItem acc key it).map Prod.snd).flatten
      ((acc.map Prod.snd).flatten ++ [it]) := by
  induction acc with
  | nil => simp [insertItem]
  | cons hd tl ih =>
    obtain ⟨k2, its⟩ := hd
    by_cases h : k2 = key
    · simp only [insertItem, if_pos h, List.map_cons, List.flatten_cons]
      rw [List.append_assoc, List.append_assoc]
      exact List.Perm.append_left its List.perm_append_comm
    · simp only [insertItem, if_neg h, List.map_cons, List.flatten_cons]
      rw [List.append_assoc]
      exact List.Perm.append_left its ih

theorem buildGroups_flatten (its : List HistoryItem) :
    ∀ (c : Nat) (acc : List (String × List HistoryItem)),
    List.Perm ((buildGroups its c acc).map Prod.snd).flatten
      ((acc.map Prod.snd).flatten ++ its) := by
  induction its with
  | nil => intro c acc; simp [buildGroups]
  | cons it rest ih =>
    intro c acc
    simp only [buildGroups]
    have h1 := ih (groupKey c it).2 (insertItem acc (groupKey c it).1 it)
    have h2 := (insertItem_flatten acc (groupKey c it).1 it).append_right rest
    have h3 := h1.trans h2
    simpa [List.append_assoc] using h3

theorem insertItem_snd_ne_nil (acc : List (String × List HistoryItem)) (key : String)
    (it : HistoryItem) (h : ∀ kv ∈ acc, kv.2 ≠ []) :
    ∀ kv ∈ insertItem acc key it, kv.2 ≠ [] := by
  induction acc with
  | nil =>
    intro kv hkv
    simp only [insertItem, List.mem_singleton] at hkv
    subst hkv; simp
  | cons hd tl ih =>
    obtain ⟨k2, its⟩ := hd
    intro kv hkv
    by_cases he : k2 = key
    · simp only [insertItem, if_pos he, List.mem_cons] at hkv
      rcases hkv with hkv | hkv
      · subst hkv; simp
      · exact h kv (List.mem_cons_of_mem _ hkv)
    · simp only [insertItem, if_neg he, List.mem_cons] at hkv
      rcases hkv with hkv | hkv
      · subst hkv; exact h (k2, its) (List.mem_cons_self _ _)
      · exact ih (fun kv2 hkv2 => h kv2 (List.mem_cons_of_mem _ hkv2)) kv hkv

theorem buildGroups_snd_ne_nil (its : List HistoryItem) :
    ∀ (c : Nat) (acc : List (String × List HistoryItem)),
    (∀ kv ∈ acc, kv.2 ≠ []) → ∀ kv ∈ buildGroups its c acc, kv.2 ≠ [] := by
  induction its with
  | nil => intro c acc h kv hkv; exact h kv hkv
  | cons it rest ih =>
    intro c acc h kv hkv
    exact ih (groupKey c it).2 _ (insertItem_snd_ne_nil acc (groupKey c it).1 it h) kv hkv

theorem insertItem_keys (acc : List (String × List HistoryItem)) (key : String)
    (it : HistoryItem) :
    (insertItem acc key it).map Prod.fst =
      if (acc.map Prod.fst).contains key then acc.map Prod.fst
      else acc.map Prod.fst ++ [key] := by
  induction acc with
  | nil => simp [insertItem]
  | cons hd tl ih =>
    obtain ⟨k2, its⟩ := hd
    by_cases h : k2 = key
    · subst h
      simp [insertItem, List.contains_cons]
    · simp only [insertItem, if_neg h, List.map_cons, ih, List.contains_cons]
      have hbeq : (key == k2) = false := by
        simp only [beq_eq_false_iff_ne, ne_eq]
        exact fun hc => h hc.symm
      rw [hbeq]
      by_cases hc : (tl.map Prod.fst).contains key = true
      · rw [if_pos hc, if_pos (by rw [Bool.false_or]; exact hc)]
      · rw [if_neg hc, if_neg (by rw [Bool.false_or]; exact hc), List.cons_append]

theorem buildGroups_keys (its : List HistoryItem) :
    ∀ (c : Nat) (acc : List (String × List HistoryItem)),
    (buildGroups its c acc).map Prod.fst =
      (keySeq its c).foldl (fun ks k => if ks.contains k then ks else ks ++ [k])
        (acc.map Prod.fst) := by
  induction its with
  | nil => intro c acc; simp [buildGroups, keySeq]
  | cons it rest ih =>
    intro c acc
    simp only [buildGroups, keySeq, List.foldl_cons]
    rw [ih, insertItem_keys]

theorem create_groups_items (s : HistorySession) :
    (_create_groups s).map (fun g => g.items) = (buildGroups s.items 0 []).map Prod.snd := by
  simp only [_create_groups, List.map_map]
  rfl

theorem create_groups_keys (s : HistorySession) :
    (_create_groups s).map (fun g => g.group_key) = (buildGroups s.items 0 []).map Prod.fst := by
  simp only [_create_groups, List.map_map]
  rfl

theorem create_groups_partition (s : HistorySession) :
    List.Perm ((_create_groups s).map (fun g => g.items)).flatten s.items := by
  rw [create_groups_items]
  simpa using buildGroups_flatten s.items 0 []

theorem create_groups_ne_nil (s : HistorySession) (g : SemanticGroup)
    (hg : g ∈ _create_groups s) : g.items ≠ [] := by
  simp only [_create_groups, List.mem_map] at hg
  obtain ⟨kv, hkv, rfl⟩ := hg
  exact buildGroups_snd_ne_nil s.items 0 [] (by simp) kv hkv

/-- C8.  The semantic groups produced by the compressor partition the
input items: their item lists flatten to a permutation of the input (each
input occurrence appears exactly once), no group is empty, and the groups
appear in first-occurrence order of their dictionary keys. -/
theorem C8_create_groups_partition (s : HistorySession) :
    (List.Perm ((_create_groups s).map (fun g => g.items)).flatten s.items) ∧
    (∀ g ∈ _create_groups s, g.items ≠ []) ∧
    (_create_groups s).map (fun g => g.group_key) = firstOccur (keySeq s.items 0) := by
  refine ⟨create_groups_partition s, fun g hg => create_groups_ne_nil s g hg, ?_⟩
  rw [create_groups_keys, buildGroups_keys]
  rfl

/-! ## Lemmas and claims: orchestrator cache and persistence contract -/

/-- C1.  When the store holds a result under the canonical identity, a
`force = false` call returns exactly that stored result, leaves the store
unchanged, makes zero Embedding Port and zero Text-Completion Port calls,
and a second identical call returns the identical outcome. -/
theorem C1_cache_hit_returns_stored (env : Env) (store : Store) (session : HistorySession)
    (user_id : Nat) (r : SessionClusteringResponse)
    (h : loadPM store (canonicalIdentifier user_id session) = some r) :
    cluster_session env store session user_id false =
      { result := Except.ok r, store := store, embedCalls := 0, llmCalls := 0 } ∧
    cluster_session env (cluster_session env store session user_id false).store session
        user_id false = cluster_session env store session user_id false := by
  have h1 : cluster_session env store session user_id false =
      { result := Except.ok r, store := store, embedCalls := 0, llmCalls := 0 } := by
    unfold cluster_session
    rw [if_neg (by simp)]
    rw [h]
  exact ⟨h1, by rw [h1]; exact h1⟩

/-- Witness for C1 at a concrete store that holds a result under the
canonical identity `u1:s1`. -/
theorem C1_witness :
    loadPM witStoreHit (canonicalIdentifier 1 witSessionA) = some (to_clustering_response witRecord) ∧
    cluster_session witEnvNone witStoreHit witSessionA 1 false =
      { result := Except.ok (to_clustering_response witRecord), store := witStoreHit,
        embedCalls := 0, llmCalls := 0 } :=
  ⟨rfl, (C1_cache_hit_returns_stored witEnvNone witStoreHit witSessionA 1
      (to_clustering_response witRecord) rfl).1⟩

theorem cache_scrutinee_none (store : Store) (session : HistorySession) (user_id : Nat)
    (force : Bool)
    (hmiss : force = true ∨ loadPM store (canonicalIdentifier user_id session) = none) :
    (if force then none else loadPM store (canonicalIdentifier user_id session)) =
      (none : Option SessionClusteringResponse) := by
  rcases hmiss with h | h
  · rw [h]; rfl
  · cases force with
    | true => rfl
    | false => simpa using h

theorem cluster_session_miss (env : Env) (store : Store) (session : HistorySession)
    (user_id : Nat) (force : Bool)
    (hmiss : force = true ∨ loadPM store (canonicalIdentifier user_id session) = none) :
    cluster_session env store session user_id force =
      computePath env store session user_id force := by
  unfold cluster_session
  rw [cache_scrutinee_none store session user_id force hmiss]

/-- C2 (amended).  On the compute path, when the Result Store's `save`
fails by raising (`create_session` failure), the error propagates out of
`cluster_session` instead of the computed result being returned. -/
theorem C2_save_failure_propagates (env : Env) (store : Store) (session : HistorySession)
    (user_id : Nat) (force : Bool)
    (hfault : env.createSessionFault = true)
    (hmiss : force = true ∨ loadPM store (canonicalIdentifier user_id session) = none) :
    (cluster_session env store session user_id force).result = Except.error () := by
  rw [cluster_session_miss env store session user_id force hmiss]
  unfold computePath
  simp [savePM, hfault]

/-- Witness for C2's amended theorem: a concrete faulty environment on the
compute path. -/
theorem C2_witness :
    witEnvFault.createSessionFault = true ∧
    (cluster_session witEnvFault witStoreEmpty witSessionA 1 true).result = Except.error () :=
  ⟨rfl, C2_save_failure_propagates witEnvFault witStoreEmpty witSessionA 1 true rfl (Or.inl rfl)⟩

/-- Counterexample to C2 as stated: on this concrete run the persistence
failure is raised out of `cluster_session` (the result is the propagated
error, not the computed `ClusteringResult`). -/
theorem C2_counterexample :
    (cluster_session witEnvFault witStoreEmpty witSessionA 1 true).result = Except.error () := by
  rfl

theorem countId_erase_eq_zero (l : List SessionRecord) (ident : String)
    (h : (l.filter (fun r => r.session_identifier = ident)).length ≤ 1) :
    ((eraseFirstByIdentifier l ident).filter (fun r => r.session_identifier = ident)).length = 0 := by
  induction l with
  | nil => rfl
  | cons r rs ih =>
    by_cases hr : r.session_identifier = ident
    · simp only [eraseFirstByIdentifier, if_pos hr]
      simp [List.filter_cons, hr] at h
      simpa using h
    · have hstep : List.filter (fun x => decide (x.session_identifier = ident)) (r :: rs) =
          List.filter (fun x => decide (x.session_identifier = ident)) rs := by
        simp [List.filter_cons, hr]
      simp only [hstep] at h
      simp only [eraseFirstByIdentifier, if_neg hr]
      have hstep2 : List.filter (fun x => decide (x.session_identifier = ident))
          (r :: eraseFirstByIdentifier rs ident) =
          List.filter (fun x => decide (x.session_identifier = ident))
            (eraseFirstByIdentifier rs ident) := by
        simp [List.filter_cons, hr]
      rw [hstep2]
      exact ih h

theorem savePM_replace_eq (fault : Bool) (st : Store) (uid : Nat)
    (resp : SessionClusteringResponse) :
    savePM fault st uid resp true =
      savePM fault
        { st with sessions := eraseFirstByIdentifier st.sessions resp.session_identifier }
        uid resp false := rfl

theorem savePM_plain_reduce (fault : Bool) (st : Store) (uid : Nat)
    (resp : SessionClusteringResponse) :
    savePM fault st uid resp false =
      if fault ∨ st.sessions.any (fun r => r.session_identifier = resp.session_identifier) then
        (st, none)
      else
        ({ sessions := st.sessions ++ [newSessionRecord st.nextId uid resp]
           nextId := st.nextId + 1 + resp.clusters.length }, some st.nextId) := rfl

theorem savePM_plain_count (fault : Bool) (st : Store) (uid : Nat)
    (resp : SessionClusteringResponse)
    (h0 : countId st resp.session_identifier = 0) :
    countId (savePM fault st uid resp false).1 resp.session_identifier ≤ 1 := by
  rw [savePM_plain_reduce]
  by_cases hc : fault = true ∨
      st.sessions.any (fun r => r.session_identifier = resp.session_identifier) = true
  · rw [if_pos hc]
    show countId st resp.session_identifier ≤ 1
    omega
  · rw [if_neg hc]
    show countId
        { sessions := st.sessions ++ [newSessionRecord st.nextId uid resp]
          nextId := st.nextId + 1 + resp.clusters.length } resp.session_identifier ≤ 1
    unfold countId at h0 ⊢
    simp only [List.filter_append, List.length_append]
    have hone : (List.filter (fun r => decide (r.session_identifier = resp.session_identifier))
        [newSessionRecord st.nextId uid resp]).length = 1 := by
      simp [newSessionRecord]
    omega

theorem savePM_replace_count (fault : Bool) (st : Store) (uid : Nat)
    (resp : SessionClusteringResponse)
    (h : countId st resp.session_identifier ≤ 1) :
    countId (savePM fault st uid resp true).1 resp.session_identifier ≤ 1 := by
  rw [savePM_replace_eq]
  exact savePM_plain_count fault _ uid resp
    (countId_erase_eq_zero st.sessions resp.session_identifier h)

theorem cluster_force_store (env : Env) (st : Store) (sess : HistorySession) (uid : Nat) :
    (cluster_session env st sess uid true).store =
      (savePM env.createSessionFault st uid (computeResponse env sess uid) true).1 := rfl

/-- C6.  Saving with `replace_if_exists = true` is delete-then-insert: it
equals a plain save into the store with the first matching row removed;
starting from at most one row under the identity it leaves at most one
row; consequently two successive `force = true` runs never leave two
result sets under the canonical identity. -/
theorem C6_force_replaces_never_merges :
    (∀ (fault : Bool) (st : Store) (uid : Nat) (resp : SessionClusteringResponse),
      savePM fault st uid resp true =
        savePM fault
          { st with sessions := eraseFirstByIdentifier st.sessions resp.session_identifier }
          uid resp false) ∧
    (∀ (fault : Bool) (st : Store) (uid : Nat) (resp : SessionClusteringResponse),
      countId st resp.session_identifier ≤ 1 →
      countId (savePM fault st uid resp true).1 resp.session_identifier ≤ 1) ∧
    (∀ (env1 env2 : Env) (st : Store) (sess : HistorySession) (uid : Nat),
      countId st (canonicalIdentifier uid sess) ≤ 1 →
      countId (cluster_session env1 st sess uid true).store (canonicalIdentifier uid sess) ≤ 1 ∧
      countId (cluster_session env2 (cluster_session env1 st sess uid true).store sess uid
          true).store (canonicalIdentifier uid sess) ≤ 1) := by
  refine ⟨fun fault st uid resp => rfl, savePM_replace_count, ?_⟩
  intro env1 env2 st sess uid h
  have s1 : countId (cluster_session env1 st sess uid true).store
      (canonicalIdentifier uid sess) ≤ 1 := by
    rw [cluster_force_store]
    exact savePM_replace_count env1.createSessionFault st uid (computeResponse env1 sess uid) h
  refine ⟨s1, ?_⟩
  rw [cluster_force_store]
  exact savePM_replace_count env2.createSessionFault _ uid (computeResponse env2 sess uid) s1

/-! ## Lemmas: candidate ids and response assembly -/

theorem cleanCandidates_no_generic (data : List JValue) :
    ∀ m ∈ cleanCandidates data, m.cluster_id ≠ genericId := by
  intro m hm
  unfold cleanCandidates at hm
  obtain ⟨iv, _, hiv⟩ := List.mem_filterMap.mp hm
  rcases iv with ⟨idx, v⟩
  cases v with
  | obj fields =>
    simp only at hiv
    split at hiv <;> split at hiv
    case isTrue.isTrue => cases hiv
    case isTrue.isFalse hgen =>
      injection hiv with hiv
      subst hiv
      exact hgen
    case isFalse.isTrue => cases hiv
    case isFalse.isFalse hgen =>
      injection hiv with hiv
      subst hiv
      exact hgen
  | null => exact absurd hiv (by simp)
  | bool b => exact absurd hiv (by simp)
  | num n => exact absurd hiv (by simp)
  | str s => exact absurd hiv (by simp)
  | arr xs => exact absurd hiv (by simp)

theorem identify_no_generic (t : Option String) :
    ∀ m ∈ _identify_clusters t, m.cluster_id ≠ genericId := by
  intro m hm
  cases t with
  | none => cases hm
  | some text =>
    have hred : _identify_clusters (some text) =
        (match _extract_json (pyStrip text) with
         | some (JValue.arr data) => cleanCandidates data
         | _ => []) := rfl
    rw [hred] at hm
    cases hx : _extract_json (pyStrip text) with
    | none => rw [hx] at hm; cases hm
    | some v =>
      rw [hx] at hm
      cases v with
      | arr data => exact cleanCandidates_no_generic data m hm
      | null => cases hm
      | bool b => cases hm
      | num n => cases hm
      | str s => cases hm
      | obj fields => cases hm

theorem assignClusterVectors_id (ms : List ClusterMeta) :
    ∀ (vs : List (List ℚ)), ∀ m2 ∈ assignClusterVectors ms vs,
      ∃ m ∈ ms, m2.cluster_id = m.cluster_id := by
  induction ms with
  | nil => intro vs m2 hm2; cases vs <;> cases hm2
  | cons m ms ih =>
    intro vs m2 hm2
    cases vs with
    | nil => exact ⟨m2, hm2, rfl⟩
    | cons v vtl =>
      simp only [assignClusterVectors, List.mem_cons] at hm2
      rcases hm2 with hm2 | hm2
      · exact ⟨m, List.mem_cons_self _ _, by rw [hm2]⟩
      · obtain ⟨m3, hm3, he⟩ := ih vtl m2 hm2
        exact ⟨m3, List.mem_cons_of_mem _ hm3, he⟩

theorem embed_clusters_no_generic (e : List String → List (List ℚ)) (t : Option String) :
    ∀ m ∈ (_embed_clusters e (_identify_clusters t)).1, m.cluster_id ≠ genericId := by
  intro m hm
  unfold _embed_clusters at hm
  split at hm
  · exact identify_no_generic t m hm
  · obtain ⟨m3, hm3, he⟩ := assignClusterVectors_id (_identify_clusters t) _ m hm
    rw [he]
    exact identify_no_generic t m3 hm3

theorem mem_buildClusterResults (metas : List ClusterMeta)
    (citems : List (String × List ClusterItem)) (c : ClusterResult)
    (hc : c ∈ buildClusterResults metas citems) :
    (∃ m ∈ metas, c.cluster_id = m.cluster_id ∧ c.embedding = m.embedding ∧
      c.items = lookupD citems m.cluster_id ∧ c.items ≠ []) ∨
    (c.cluster_id = genericId ∧ c.embedding = none ∧
      c.items = lookupD citems genericId ∧ c.items ≠ []) := by
  unfold buildClusterResults at hc
  rcases List.mem_append.mp hc with h | h
  · left
    obtain ⟨m, hm, he⟩ := List.mem_filterMap.mp h
    split at he
    · cases he
    · rename_i hne
      injection he with he
      subst he
      exact ⟨m, hm, rfl, rfl, rfl, hne⟩
  · right
    by_cases hgi : lookupD citems genericId = []
    · rw [if_pos hgi] at h; cases h
    · rw [if_neg hgi] at h
      simp only [List.mem_singleton] at h
      subst h
      exact ⟨rfl, rfl, rfl, hgi⟩

/-- C7 (amended).  On the compute path the emitted GenericBucket
`ClusterResult` carries no embedding (no extra Embedding Port call is made
for it: the call count is exactly the group call plus the candidate call),
while a ThemeCandidate's `ClusterResult` carries that candidate's
embedding; the response an ok run returns is exactly the computed one. -/
theorem C7_generic_bucket_embedding (env : Env) (session : HistorySession) (user_id : Nat) :
    (∀ c ∈ (computeResponse env session user_id).clusters,
      (c.cluster_id = genericId → c.embedding = none) ∧
      (c.cluster_id ≠ genericId →
        ∃ m ∈ (_embed_clusters env.embed (_identify_clusters env.llm)).1,
          c.cluster_id = m.cluster_id ∧ c.embedding = m.embedding)) ∧
    (∀ (store : Store) (force : Bool),
      (computePath env store session user_id force).embedCalls =
        (_embed_groups env.embed (_create_groups session)).2 +
        (_embed_clusters env.embed (_identify_clusters env.llm)).2) ∧
    (∀ (store : Store) (force : Bool) (r : SessionClusteringResponse),
      (force = true ∨ loadPM store (canonicalIdentifier user_id session) = none) →
      (cluster_session env store session user_id force).result = Except.ok r →
      r = computeResponse env session user_id) := by
  refine ⟨?_, fun store force => rfl, ?_⟩
  · intro c hc
    have hmem := mem_buildClusterResults
      (_embed_clusters env.embed (_identify_clusters env.llm)).1
      (_decompress (_assign_groups
        (_embed_groups env.embed (_create_groups session)).1
        (_embed_clusters env.embed (_identify_clusters env.llm)).1)) c hc
    constructor
    · intro hgen
      rcases hmem with ⟨m, hm, hid, _⟩ | ⟨_, hemb, _⟩
      · exact absurd (hid ▸ hgen ▸ rfl : m.cluster_id = genericId)
          (embed_clusters_no_generic env.embed env.llm m hm)
      · exact hemb
    · intro hng
      rcases hmem with ⟨m, hm, hid, hemb, _⟩ | ⟨hgen, _⟩
      · exact ⟨m, hm, hid, hemb⟩
      · exact absurd hgen hng
  · intro store force r hmiss hok
    rw [cluster_session_miss env store session user_id force hmiss] at hok
    have hres : (computePath env store session user_id force).result =
        if (savePM env.createSessionFault store user_id
            (computeResponse env session user_id) force).2.isSome = true
        then Except.ok (computeResponse env session user_id) else Except.error () := rfl
    rw [hres] at hok
    rcases hsv : (savePM env.createSessionFault store user_id
        (computeResponse env session user_id) force).2 with _ | n
    · rw [hsv] at hok
      simp at hok
    · rw [hsv] at hok
      simp only [Option.isSome_some, if_true] at hok
      injection hok with hok
      exact hok.symm

/-- Counterexample to C7 as stated: on this concrete compute-path run the
generic bucket is emitted non-empty, yet it carries no embedding and the
total number of Embedding Port calls is 1 (the group-embedding call) — no
extra call is made for the generic bucket. -/
theorem C7_counterexample :
    (cluster_session witEnvNone witStoreEmpty witSessionA 1 true).result =
      Except.ok
        { session_identifier := "u1:s1", session_start_time := 0, session_end_time := 9,
          clusters := [{ cluster_id := genericId, theme := genericTheme,
                         summary := genericSummary, items := [stampItem none witItemA],
                         embedding := none }] } ∧
    (cluster_session witEnvNone witStoreEmpty witSessionA 1 true).embedCalls = 1 :=
  ⟨rfl, rfl⟩

/-! ## Lemmas and claim: cosine similarity -/

theorem dotQ_comm (a b : List ℚ) : dotQ a b = dotQ b a := by
  induction a generalizing b with
  | nil => cases b <;> simp [dotQ]
  | cons x xs ih =>
    cases b with
    | nil => simp [dotQ]
    | cons y ys =>
      simp only [dotQ, List.zipWith_cons_cons, List.sum_cons]
      have h := ih ys
      simp only [dotQ] at h
      rw [mul_comm x y, h]

theorem dotQ_self_nonneg (a : List ℚ) : 0 ≤ dotQ a a := by
  induction a with
  | nil => simp [dotQ]
  | cons x xs ih =>
    simp only [dotQ, List.zipWith_cons_cons, List.sum_cons]
    have h2 : 0 ≤ (List.zipWith (fun x y => x * y) xs xs).sum := ih
    exact add_nonneg (mul_self_nonneg x) h2

/-- C9.  The cosine similarity of the engine (in the exact-arithmetic
model): it is symmetric in its arguments, equals `1` on any vector of
non-zero norm paired with itself, and equals `0` whenever either argument
has zero norm. -/
theorem C9_cosine_properties :
    (∀ a b : List ℚ, a.length = b.length → cosine_similarity a b = cosine_similarity b a) ∧
    (∀ a : List ℚ, l2norm a ≠ 0 → cosine_similarity a a = 1) ∧
    (∀ a b : List ℚ, l2norm a = 0 ∨ l2norm b = 0 → cosine_similarity a b = 0) := by
  refine ⟨?_, ?_, ?_⟩
  · intro a b _
    unfold cosine_similarity
    by_cases h : l2norm a = 0 ∨ l2norm b = 0
    · rw [if_pos h, if_pos (Or.symm h)]
    · rw [if_neg h, if_neg (fun hc => h (Or.symm hc))]
      rw [dotQ_comm a b, mul_comm (l2norm a) (l2norm b)]
  · intro a h
    unfold cosine_similarity
    rw [if_neg (fun hc => h (hc.elim id id))]
    have hnn : (0 : ℝ) ≤ ((dotQ a a : ℚ) : ℝ) := by exact_mod_cast dotQ_self_nonneg a
    have hsq : l2norm a * l2norm a = ((dotQ a a : ℚ) : ℝ) := Real.mul_self_sqrt hnn
    rw [hsq]
    refine div_self ?_
    intro h0
    apply h
    unfold l2norm
    rw [h0, Real.sqrt_zero]
  · intro a b h
    unfold cosine_similarity
    rw [if_pos h]

/-! ## Lemmas and claim: degradation to the generic bucket -/

theorem identify_empty_of_noRecoverable (t : Option String)
    (h : noRecoverableList t = true) : _identify_clusters t = [] := by
  cases t with
  | none => rfl
  | some text =>
    have hred : _identify_clusters (some text) =
        (match _extract_json (pyStrip text) with
         | some (JValue.arr data) => cleanCandidates data
         | _ => []) := rfl
    have hred2 : noRecoverableList (some text) =
        (match _extract_json (pyStrip text) with
         | some (JValue.arr _) => false
         | _ => true) := rfl
    rw [hred]
    rw [hred2] at h
    cases hx : _extract_json (pyStrip text) with
    | none => rfl
    | some v =>
      rw [hx] at h
      cases v with
      | arr data => cases h
      | null => rfl
      | bool b => rfl
      | num n => rfl
      | str s => rfl
      | obj fields => rfl

theorem threshold_not_le_neg_one :
    ¬((-1 : ℝ) ≥ ((clustering_similarity_threshold : ℚ) : ℝ)) := by
  unfold clustering_similarity_threshold
  push_cast
  norm_num

theorem assignTarget_nil (g : SemanticGroup) : assignTarget [] g = genericId := by
  unfold assignTarget
  rcases hge : g.embedding with _ | e
  · rfl
  · show (if e = [] then genericId
      else if (bestCluster e []).2 ≥ ((clustering_similarity_threshold : ℚ) : ℝ)
           then (bestCluster e []).1 else genericId) = genericId
    by_cases he : e = []
    · rw [if_pos he]
    · rw [if_neg he]
      exact if_neg threshold_not_le_neg_one

theorem assign_groups_nil_metas (groups : List SemanticGroup) :
    _assign_groups groups [] = [(genericId, groups)] := by
  have aux : ∀ (gs acc : List SemanticGroup),
      gs.foldl (fun m g => appendAt m (assignTarget [] g) g) [(genericId, acc)] =
        [(genericId, acc ++ gs)] := by
    intro gs
    induction gs with
    | nil => intro acc; simp
    | cons g gs ih =>
      intro acc
      simp only [List.foldl_cons]
      have hstep : appendAt [(genericId, acc)] (assignTarget [] g) g =
          [(genericId, acc ++ [g])] := by
        unfold appendAt
        rw [assignTarget_nil g, if_pos rfl]
      rw [hstep, ih (acc ++ [g]), List.append_assoc]
      simp
  have h0 : _assign_groups groups [] =
      groups.foldl (fun m g => appendAt m (assignTarget [] g) g) [(genericId, [])] := rfl
  rw [h0, aux groups []]
  simp

theorem assignGroupVectors_items (gs : List SemanticGroup) :
    ∀ vs : List (List ℚ),
      (assignGroupVectors gs vs).map (fun g => g.items) = gs.map (fun g => g.items) := by
  induction gs with
  | nil => intro vs; rfl
  | cons g gs ih =>
    intro vs
    unfold assignGroupVectors
    by_cases ht : groupEmbedText g = ""
    · rw [if_pos ht]
      simp only [List.map_cons, ih vs]
    · rw [if_neg ht]
      cases vs with
      | nil => simp only [List.map_cons, ih []]
      | cons v vtl => simp only [List.map_cons, ih vtl]

theorem embed_groups_items (e : List String → List (List ℚ)) (gs : List SemanticGroup) :
    ((_embed_groups e gs).1).map (fun g => g.items) = gs.map (fun g => g.items) := by
  unfold _embed_groups
  by_cases ht : embedGroupTexts gs = []
  · rw [if_pos ht]
  · rw [if_neg ht]
    exact assignGroupVectors_items gs (e (embedGroupTexts gs))

theorem stamped_map_proj (gs : List SemanticGroup) :
    ((gs.map (fun g => g.items.map (stampItem g.embedding))).flatten).map projItem =
      (gs.map (fun g => g.items)).flatten := by
  rw [List.map_flatten, List.map_map]
  congr 1
  apply List.map_congr_left
  intro g _
  simp only [Function.comp_apply, List.map_map]
  have : projItem ∘ stampItem g.embedding = id := by
    funext it
    rfl
  rw [this, List.map_id]

theorem computePath_result (env : Env) (store : Store) (session : HistorySession)
    (user_id : Nat) (force : Bool) :
    (computePath env store session user_id force).result =
      if (savePM env.createSessionFault store user_id
          (computeResponse env session user_id) force).2.isSome = true
      then Except.ok (computeResponse env session user_id) else Except.error () := rfl

theorem loadPM_none_no_row (st : Store) (ident : String)
    (h : loadPM st ident = none) :
    st.sessions.any (fun r => r.session_identifier = ident) = false := by
  unfold loadPM get_session_graph at h
  rw [Option.map_eq_none'] at h
  rw [List.find?_eq_none] at h
  rw [List.any_eq_false]
  intro r hr
  simpa using h r hr

/-- C4.  When the completion call raises or yields text from which no JSON
list can be recovered, the Theme Discoverer returns the empty candidate
list and a cache-miss run (with working persistence) returns exactly one
cluster — the generic bucket — whose items are exactly the input items
(each once, in the sense of permutation of the projections). -/
theorem C4_malformed_llm_all_generic (env : Env) (store : Store) (session : HistorySession)
    (user_id : Nat)
    (hitems : session.items ≠ [])
    (hllm : noRecoverableList env.llm = true)
    (hfault : env.createSessionFault = false)
    (hmiss : loadPM store (canonicalIdentifier user_id session) = none) :
    _identify_clusters env.llm = [] ∧
    ∃ items : List ClusterItem,
      (cluster_session env store session user_id false).result =
        Except.ok
          { session_identifier := canonicalIdentifier user_id session
            session_start_time := session.start_time
            session_end_time := session.end_time
            clusters := [{ cluster_id := genericId, theme := genericTheme,
                           summary := genericSummary, items := items,
                           embedding := none }] } ∧
      List.Perm (items.map projItem) session.items := by
  have hid : _identify_clusters env.llm = [] := identify_empty_of_noRecoverable env.llm hllm
  refine ⟨hid, ?_⟩
  have hce : (_embed_clusters env.embed (_identify_clusters env.llm)).1 = [] := by
    rw [hid]; rfl
  set gs := (_embed_groups env.embed (_create_groups session)).1 with hgs
  set stamped := ((gs.map (fun g => g.items.map (stampItem g.embedding))).flatten) with hstamped
  have hproj : List.Perm (stamped.map projItem) session.items := by
    rw [hstamped, stamped_map_proj, hgs, embed_groups_items]
    exact create_groups_partition session
  have hstne : stamped ≠ [] := by
    intro h0
    apply hitems
    have := hproj
    rw [h0] at this
    exact (List.Perm.nil_eq this).symm
  have hclusters : (computeClusters env session).1 =
      [{ cluster_id := genericId, theme := genericTheme, summary := genericSummary,
         items := stamped, embedding := none }] := by
    have h1 : (computeClusters env session).1 =
        buildClusterResults (_embed_clusters env.embed (_identify_clusters env.llm)).1
          (_decompress (_assign_groups gs
            (_embed_clusters env.embed (_identify_clusters env.llm)).1)) := rfl
    rw [h1, hce, assign_groups_nil_metas]
    have h2 : _decompress [(genericId, gs)] = [(genericId, stamped)] := rfl
    rw [h2]
    unfold buildClusterResults
    have h3 : lookupD [(genericId, stamped)] genericId = stamped := by
      unfold lookupD
      simp
    rw [h3]
    rw [if_neg hstne]
    rfl
  refine ⟨stamped, ?_, hproj⟩
  rw [cluster_session_miss env store session user_id false (Or.inr hmiss)]
  rw [computePath_result]
  have hsv : (savePM env.createSessionFault store user_id
      (computeResponse env session user_id) false).2 = some store.nextId := by
    rw [savePM_plain_reduce]
    rw [if_neg ?hc]
    case hc =>
      rw [hfault]
      have hany := loadPM_none_no_row store (canonicalIdentifier user_id session) hmiss
      have hci : (computeResponse env session user_id).session_identifier =
          canonicalIdentifier user_id session := rfl
      rw [hci, hany]
      simp
  rw [hsv]
  simp only [Option.isSome_some, if_true]
  congr 1
  unfold computeResponse
  rw [hclusters]

/-! ## Lemmas: decimal digit strings of the synthetic no-title keys -/

theorem digitChar_ne_colon : ∀ d < 10, Nat.digitChar d ≠ ':' := by decide

theorem digitChar_inj : ∀ a < 10, ∀ b < 10, Nat.digitChar a = Nat.digitChar b → a = b := by
  decide

theorem natChars_lt (n : Nat) (h : n < 10) : natChars n = [Nat.digitChar n] := by
  unfold natChars
  rw [dif_pos h]

theorem natChars_ge (n : Nat) (h : ¬n < 10) :
    natChars n = natChars (n / 10) ++ [Nat.digitChar (n % 10)] := by
  conv_lhs => rw [natChars]
  rw [dif_neg h]

theorem natChars_ne_nil (n : Nat) : natChars n ≠ [] := by
  by_cases h : n < 10
  · rw [natChars_lt n h]; simp
  · rw [natChars_ge n h]; simp

theorem natChars_no_colon (n : Nat) : ∀ c ∈ natChars n, c ≠ ':' := by
  induction n using Nat.strong_induction_on with
  | _ n ih =>
    intro c hc
    by_cases h : n < 10
    · rw [natChars_lt n h] at hc
      simp only [List.mem_singleton] at hc
      subst hc
      exact digitChar_ne_colon n h
    · rw [natChars_ge n h] at hc
      rcases List.mem_append.mp hc with h1 | h2
      · exact ih (n / 10) (Nat.div_lt_self (by omega) (by omega)) c h1
      · simp only [List.mem_singleton] at h2
        subst h2
        exact digitChar_ne_colon (n % 10) (Nat.mod_lt _ (by omega))

theorem natChars_inj : ∀ m n : Nat, natChars m = natChars n → m = n := by
  intro m
  induction m using Nat.strong_induction_on with
  | _ m ih =>
    intro n h
    by_cases hm : m < 10 <;> by_cases hn : n < 10
    · rw [natChars_lt m hm, natChars_lt n hn] at h
      simp only [List.cons.injEq, and_true] at h
      exact digitChar_inj m hm n hn h
    · exfalso
      rw [natChars_lt m hm, natChars_ge n hn] at h
      have hlen := congrArg List.length h
      have hpos : 0 < (natChars (n / 10)).length :=
        List.length_pos.mpr (natChars_ne_nil _)
      simp only [List.length_singleton, List.length_append] at hlen
      omega
    · exfalso
      rw [natChars_ge m hm, natChars_lt n hn] at h
      have hlen := congrArg List.length h
      have hpos : 0 < (natChars (m / 10)).length :=
        List.length_pos.mpr (natChars_ne_nil _)
      simp only [List.length_singleton, List.length_append] at hlen
      omega
    · rw [natChars_ge m hm, natChars_ge n hn] at h
      have hrev := congrArg List.reverse h
      simp only [List.reverse_append, List.reverse_singleton, List.singleton_append,
        List.cons.injEq] at hrev
      obtain ⟨h1, h2⟩ := hrev
      have hdiv : m / 10 = n / 10 :=
        ih (m / 10) (Nat.div_lt_self (by omega) (by omega)) (n / 10)
          (List.reverse_injective h2)
      have hmod : m % 10 = n % 10 :=
        digitChar_inj (m % 10) (Nat.mod_lt _ (by omega)) (n % 10) (Nat.mod_lt _ (by omega)) h1
      omega

theorem toDigitsCore_eq_natChars :
    ∀ (fuel n : Nat) (ds : List Char), n < fuel →
    Nat.toDigitsCore 10 fuel n ds = natChars n ++ ds := by
  intro fuel
  induction fuel with
  | zero => intro n ds h; omega
  | succ fuel ih =>
    intro n ds h
    unfold Nat.toDigitsCore
    by_cases h10 : n / 10 = 0
    · rw [if_pos h10]
      have hlt : n < 10 := by omega
      rw [natChars_lt n hlt, Nat.mod_eq_of_lt hlt]
      rfl
    · rw [if_neg h10]
      have hdiv : n / 10 < n := Nat.div_lt_self (by omega) (by omega)
      rw [ih (n / 10) (Nat.digitChar (n % 10) :: ds) (by omega)]
      rw [natChars_ge n (by omega)]
      simp [List.append_assoc]

theorem repr_data (n : Nat) : (Nat.repr n).data = natChars n := by
  unfold Nat.repr Nat.toDigits
  rw [toDigitsCore_eq_natChars (n + 1) n [] (Nat.lt_succ_self n)]
  simp [List.asString]

/-! ## Lemmas: prefixes and colon-separated keys -/

theorem isPrefixOf_append_self (P rest : List Char) : P.isPrefixOf (P ++ rest) = true := by
  induction P with
  | nil => cases rest <;> rfl
  | cons p ps ih => simp [List.isPrefixOf, ih]

theorem isPrefixOf_through_colon (P : List Char) (hP : ∀ c ∈ P, c ≠ ':') :
    ∀ t u : List Char, P.isPrefixOf (t ++ ':' :: u) = true → P.isPrefixOf t = true := by
  induction P with
  | nil => intro t u _; cases t <;> rfl
  | cons p ps ih =>
    intro t u h
    cases t with
    | nil =>
      exfalso
      simp only [List.nil_append, List.isPrefixOf, Bool.and_eq_true, beq_iff_eq] at h
      exact hP p (List.mem_cons_self _ _) h.1
    | cons a t =>
      simp only [List.cons_append, List.isPrefixOf, Bool.and_eq_true] at h ⊢
      exact ⟨h.1, ih (fun c hc => hP c (List.mem_cons_of_mem _ hc)) t u h.2⟩

theorem append_colon_inj (xs : List Char) (hxs : ∀ c ∈ xs, c ≠ ':') :
    ∀ ys u v : List Char, (∀ c ∈ ys, c ≠ ':') →
    xs ++ ':' :: u = ys ++ ':' :: v → xs = ys ∧ u = v := by
  induction xs with
  | nil =>
    intro ys u v hys h
    cases ys with
    | nil =>
      simp only [List.nil_append, List.cons.injEq, true_and] at h
      exact ⟨rfl, h⟩
    | cons y ys =>
      exfalso
      simp only [List.nil_append, List.cons_append, List.cons.injEq] at h
      exact hys y (List.mem_cons_self _ _) h.1.symm
  | cons x xs ih =>
    intro ys u v hys h
    cases ys with
    | nil =>
      exfalso
      simp only [List.cons_append, List.nil_append, List.cons.injEq] at h
      exact hxs x (List.mem_cons_self _ _) h.1
    | cons y ys =>
      simp only [List.cons_append, List.cons.injEq] at h
      obtain ⟨h1, h2⟩ := h
      obtain ⟨hx2, hu⟩ := ih (fun c hc => hxs c (List.mem_cons_of_mem _ hc)) ys u v
        (fun c hc => hys c (List.mem_cons_of_mem _ hc)) h2
      exact ⟨by rw [h1, hx2], hu⟩

theorem marker_no_colon : ∀ c ∈ ("__notitle__" : String).data, c ≠ ':' := by decide

theorem untitledKey_data (n : Nat) (h : String) :
    ("__notitle__" ++ Nat.repr n ++ "::" ++ h).data =
      ("__notitle__" : String).data ++ (natChars n ++ (':' :: ':' :: h.data)) := by
  simp only [String.data_append, repr_data, List.append_assoc]
  rfl

theorem untitledKey_inj (n1 n2 : Nat) (h1 h2 : String)
    (he : "__notitle__" ++ Nat.repr n1 ++ "::" ++ h1 =
          "__notitle__" ++ Nat.repr n2 ++ "::" ++ h2) : n1 = n2 := by
  have hd := congrArg String.data he
  rw [untitledKey_data, untitledKey_data] at hd
  have hd2 := List.append_cancel_left hd
  have hsplit := append_colon_inj (natChars n1) (natChars_no_colon n1) (natChars n2)
    (':' :: h1.data) (':' :: h2.data) (natChars_no_colon n2) hd2
  exact natChars_inj n1 n2 hsplit.1

theorem untitledKey_marker (n : Nat) (h : String) :
    ("__notitle__" : String).data.isPrefixOf
      ("__notitle__" ++ Nat.repr n ++ "::" ++ h).data = true := by
  rw [untitledKey_data]
  exact isPrefixOf_append_self _ _

theorem titledKey_data (t h : String) :
    (t ++ "::" ++ h).data = t.data ++ (':' :: ':' :: h.data) := by
  simp only [String.data_append, List.append_assoc]
  rfl

theorem titledKey_no_marker (t h : String)
    (ht : ("__notitle__" : String).data.isPrefixOf t.data = false) :
    ("__notitle__" : String).data.isPrefixOf (t ++ "::" ++ h).data = false := by
  rw [titledKey_data]
  by_cases hc : ("__notitle__" : String).data.isPrefixOf (t.data ++ ':' :: (':' :: h.data)) = true
  · exfalso
    have := isPrefixOf_through_colon _ marker_no_colon t.data (':' :: h.data) hc
    rw [ht] at this
    cases this
  · simp only [Bool.not_eq_true] at hc
    exact hc

/-! ## Lemmas and claim: untitled items form singleton groups -/

theorem mem_insertItem (acc : List (String × List HistoryItem)) (key : String)
    (it : HistoryItem) :
    ∀ kv ∈ insertItem acc key it,
      kv ∈ acc ∨ kv = (key, [it]) ∨
      ∃ its0, (key, its0) ∈ acc ∧ kv = (key, its0 ++ [it]) := by
  induction acc with
  | nil =>
    intro kv hkv
    simp only [insertItem, List.mem_singleton] at hkv
    exact Or.inr (Or.inl hkv)
  | cons hd tl ih =>
    obtain ⟨k2, its⟩ := hd
    intro kv hkv
    by_cases hk : k2 = key
    · subst hk
      have hred : insertItem ((k2, its) :: tl) k2 it = (k2, its ++ [it]) :: tl := by
        unfold insertItem
        rw [if_pos rfl]
      rw [hred] at hkv
      rcases List.mem_cons.mp hkv with hkv | hkv
      · exact Or.inr (Or.inr ⟨its, List.mem_cons_self _ _, hkv⟩)
      · exact Or.inl (List.mem_cons_of_mem _ hkv)
    · unfold insertItem at hkv
      rw [if_neg hk] at hkv
      rcases List.mem_cons.mp hkv with hkv | hkv
      · exact Or.inl (by rw [hkv]; exact List.mem_cons_self _ _)
      · rcases ih kv hkv with h | h | ⟨its0, hm, he⟩
        · exact Or.inl (List.mem_cons_of_mem _ h)
        · exact Or.inr (Or.inl h)
        · exact Or.inr (Or.inr ⟨its0, List.mem_cons_of_mem _ hm, he⟩)

theorem untitledInv_mono (c1 c2 : Nat) (kv : String × List HistoryItem)
    (hle : c1 ≤ c2) (h : UntitledInv c1 kv) : UntitledInv c2 kv := by
  rcases h with ⟨n, host, hn, hk, rest⟩ | hr
  · exact Or.inl ⟨n, host, by omega, hk, rest⟩
  · exact Or.inr hr

theorem insertItem_inv (counter : Nat) (acc : List (String × List HistoryItem))
    (hacc : ∀ kv ∈ acc, UntitledInv counter kv) (it : HistoryItem)
    (hit : ("__notitle__" : String).data.isPrefixOf (pyStrip it.title).data = false) :
    ∀ kv ∈ insertItem acc (groupKey counter it).1 it,
      UntitledInv (groupKey counter it).2 kv := by
  by_cases hunt : pyStrip it.title = ""
  · -- untitled item: fresh synthetic key, new singleton entry
    have hkey : (groupKey counter it).1 =
        "__notitle__" ++ Nat.repr counter ++ "::" ++ it.url_hostname.getD "" := by
      unfold groupKey
      rw [if_pos hunt]
    have hcounter : (groupKey counter it).2 = counter + 1 := by
      unfold groupKey
      rw [if_pos hunt]
    have hfresh : ∀ kv ∈ acc, kv.1 ≠ (groupKey counter it).1 := by
      intro kv hkv heq
      rcases hacc kv hkv with ⟨n, host, hn, hk, _⟩ | ⟨_, hpre⟩
      · rw [hkey, hk] at heq
        have := untitledKey_inj n counter host (it.url_hostname.getD "") heq
        omega
      · rw [heq, hkey] at hpre
        rw [untitledKey_marker counter (it.url_hostname.getD "")] at hpre
        cases hpre
    intro kv hkv
    rw [hcounter]
    rcases mem_insertItem acc (groupKey counter it).1 it kv hkv with h | h | ⟨its0, hm, _⟩
    · exact untitledInv_mono counter (counter + 1) kv (by omega) (hacc kv h)
    · refine Or.inl ⟨counter, it.url_hostname.getD "", by omega, ?_, it, ?_, hunt⟩
      · rw [h, hkey]
      · rw [h]
    · exact absurd rfl (hfresh _ hm)
  · -- titled item: the key keeps the marker out, entries stay all-titled
    have hkey : (groupKey counter it).1 =
        pyStrip it.title ++ "::" ++ it.url_hostname.getD "" := by
      unfold groupKey
      rw [if_neg hunt]
    have hcounter : (groupKey counter it).2 = counter := by
      unfold groupKey
      rw [if_neg hunt]
    have hpre : ("__notitle__" : String).data.isPrefixOf (groupKey counter it).1.data
        = false := by
      rw [hkey]
      exact titledKey_no_marker _ _ hit
    intro kv hkv
    rw [hcounter]
    rcases mem_insertItem acc (groupKey counter it).1 it kv hkv with h | h | ⟨its0, hm, he⟩
    · exact hacc kv h
    · refine Or.inr ⟨?_, ?_⟩
      · intro it2 hit2
        rw [h] at hit2
        simp only [List.mem_singleton] at hit2
        subst hit2
        exact hunt
      · rw [h]
        exact hpre
    · rcases hacc _ hm with ⟨n, host, hn, hk, _⟩ | ⟨hall, _⟩
      · exfalso
        have hmk : ("__notitle__" : String).data.isPrefixOf (groupKey counter it).1.data
            = true := by
          have hk2 : (groupKey counter it).1 = "__notitle__" ++ Nat.repr n ++ "::" ++ host := hk
          rw [hk2]
          exact untitledKey_marker n host
        rw [hmk] at hpre
        cases hpre
      · refine Or.inr ⟨?_, ?_⟩
        · intro it2 hit2
          rw [he] at hit2
          rcases List.mem_append.mp hit2 with h2 | h2
          · exact hall it2 h2
          · simp only [List.mem_singleton] at h2
            subst h2
            exact hunt
        · rw [he]
          exact hpre

theorem buildGroups_inv (its : List HistoryItem) :
    (∀ it ∈ its, ("__notitle__" : String).data.isPrefixOf (pyStrip it.title).data = false) →
    ∀ (counter : Nat) (acc : List (String × List HistoryItem)),
    (∀ kv ∈ acc, UntitledInv counter kv) →
    ∀ kv ∈ buildGroups its counter acc, ∃ c2, UntitledInv c2 kv := by
  induction its with
  | nil =>
    intro _ counter acc hacc kv hkv
    exact ⟨counter, hacc kv hkv⟩
  | cons it rest ih =>
    intro hclean counter acc hacc kv hkv
    exact ih (fun it2 h2 => hclean it2 (List.mem_cons_of_mem _ h2)) (groupKey counter it).2
      (insertItem acc (groupKey counter it).1 it)
      (insertItem_inv counter acc hacc it (hclean it (List.mem_cons_self _ _)))
      kv hkv

/-- C5 (amended).  In a session where no stripped title starts with the
synthetic-key marker `__notitle__`, every item whose title strips to empty
lands in some group, and every group containing such an item is a
singleton — the untitled item is merged with nothing. -/
theorem C5_untitled_items_singletons (session : HistorySession)
    (hclean : ∀ it ∈ session.items,
      ("__notitle__" : String).data.isPrefixOf (pyStrip it.title).data = false)
    (it : HistoryItem) (hit : it ∈ session.items) (hunt : pyStrip it.title = "") :
    (∃ g ∈ _create_groups session, it ∈ g.items) ∧
    ∀ g ∈ _create_groups session, (∃ it2 ∈ g.items, pyStrip it2.title = "") →
      ∃ it0, g.items = [it0] := by
  constructor
  · have hmem : it ∈ ((_create_groups session).map (fun g => g.items)).flatten :=
      (create_groups_partition session).mem_iff.mpr hit
    rw [List.mem_flatten] at hmem
    obtain ⟨l, hl, hitl⟩ := hmem
    rw [List.mem_map] at hl
    obtain ⟨g, hg, rfl⟩ := hl
    exact ⟨g, hg, hitl⟩
  · intro g hg ⟨it2, hit2, hunt2⟩
    unfold _create_groups at hg
    rw [List.mem_map] at hg
    obtain ⟨kv, hkv, rfl⟩ := hg
    obtain ⟨c2, hinv⟩ := buildGroups_inv session.items hclean 0 [] (by simp) kv hkv
    rcases hinv with ⟨n, host, _, _, it0, hsing, _⟩ | ⟨hall, _⟩
    · exact ⟨it0, hsing⟩
    · exact absurd hunt2 (hall it2 hit2)

/-- Witness for C5's amended theorem: a concrete session with one
whitespace-titled item; that item is placed alone in a singleton group. -/
theorem C5_witness :
    ((∀ it ∈ witSessionUntitled.items,
        ("__notitle__" : String).data.isPrefixOf (pyStrip it.title).data = false) ∧
      witItemNoTitle ∈ witSessionUntitled.items ∧ pyStrip witItemNoTitle.title = "") ∧
    ((∃ g ∈ _create_groups witSessionUntitled, witItemNoTitle ∈ g.items) ∧
      ∀ g ∈ _create_groups witSessionUntitled,
        (∃ it2 ∈ g.items, pyStrip it2.title = "") → ∃ it0, g.items = [it0]) :=
  ⟨⟨by decide, by decide, by decide⟩,
    C5_untitled_items_singletons witSessionUntitled (by decide) witItemNoTitle
      (by decide) (by decide)⟩

/-- Counterexample to C5 as stated: a titled item whose literal title is
`__notitle__0` on the same hostname collides with the first synthetic key,
so the untitled item is merged into a group of size 2. -/
theorem C5_counterexample :
    ∃ g ∈ _create_groups witSessionCollide,
      (∃ it2 ∈ g.items, pyStrip it2.title = "") ∧ g.items.length = 2 := by
  decide

/-- Witness for C4 at a session with one item, the completion text
`not json`, an empty store and working persistence. -/
theorem C4_witness :
    (witSessionA.items ≠ [] ∧ noRecoverableList witEnvNotJson.llm = true ∧
      witEnvNotJson.createSessionFault = false ∧
      loadPM witStoreEmpty (canonicalIdentifier 1 witSessionA) = none) ∧
    (_identify_clusters witEnvNotJson.llm = [] ∧
      ∃ items : List ClusterItem,
        (cluster_session witEnvNotJson witStoreEmpty witSessionA 1 false).result =
          Except.ok
            { session_identifier := canonicalIdentifier 1 witSessionA
              session_start_time := witSessionA.start_time
              session_end_time := witSessionA.end_time
              clusters := [{ cluster_id := genericId, theme := genericTheme,
                             summary := genericSummary, items := items,
                             embedding := none }] } ∧
        List.Perm (items.map projItem) witSessionA.items) :=
  ⟨⟨by decide, by decide, rfl, rfl⟩,
    C4_malformed_llm_all_generic witEnvNotJson witStoreEmpty witSessionA 1
      (by decide) (by decide) rfl rfl⟩

/-! ## Lemmas and claim: the similarity assigner -/

theorem bestCluster_spec (e : List ℚ) :
    ∀ (valid : List ClusterMeta) (b : String × ℝ),
      ((∀ c ∈ valid, cosine_similarity e (c.embedding.getD []) ≤ b.2) ∧
        valid.foldl
          (fun best c =>
            let sim := cosine_similarity e (c.embedding.getD [])
            if sim > best.2 then (c.cluster_id, sim) else best) b = b) ∨
      (∃ j, ∃ hj : j < valid.length,
        cosine_similarity e ((valid.get ⟨j, hj⟩).embedding.getD []) > b.2 ∧
        (∀ i, ∀ hi : i < valid.length,
          cosine_similarity e ((valid.get ⟨i, hi⟩).embedding.getD []) ≤
            cosine_similarity e ((valid.get ⟨j, hj⟩).embedding.getD [])) ∧
        (∀ i, ∀ hi : i < valid.length, i < j →
          cosine_similarity e ((valid.get ⟨i, hi⟩).embedding.getD []) <
            cosine_similarity e ((valid.get ⟨j, hj⟩).embedding.getD [])) ∧
        valid.foldl
          (fun best c =>
            let sim := cosine_similarity e (c.embedding.getD [])
            if sim > best.2 then (c.cluster_id, sim) else best) b =
          ((valid.get ⟨j, hj⟩).cluster_id,
            cosine_similarity e ((valid.get ⟨j, hj⟩).embedding.getD []))) := by
  intro valid
  induction valid with
  | nil => intro b; exact Or.inl ⟨by simp, rfl⟩
  | cons c cs ih =>
    intro b
    by_cases h0 : cosine_similarity e (c.embedding.getD []) > b.2
    · have hstep : (let sim := cosine_similarity e (c.embedding.getD [])
          if sim > b.2 then (c.cluster_id, sim) else b) =
          (c.cluster_id, cosine_similarity e (c.embedding.getD [])) := by
        show (if cosine_similarity e (c.embedding.getD []) > b.2
              then (c.cluster_id, cosine_similarity e (c.embedding.getD [])) else b) = _
        rw [if_pos h0]
      rcases ih (c.cluster_id, cosine_similarity e (c.embedding.getD [])) with
        ⟨hall, heq⟩ | ⟨j, hj, hgt, hmax, hstrict, heq⟩
      · refine Or.inr ⟨0, by simp, ?_, ?_, ?_, ?_⟩
        · simpa using h0
        · intro i hi
          cases i with
          | zero => simp
          | succ i =>
            simp only [List.get_cons_succ, List.get_cons_zero]
            exact hall (cs.get ⟨i, by simpa using hi⟩) (List.get_mem cs i _)
        · intro i hi hlt; omega
        · rw [List.foldl_cons, hstep, heq]
          simp
      · refine Or.inr ⟨j + 1, by simpa using Nat.succ_lt_succ hj, ?_, ?_, ?_, ?_⟩
        · simp only [List.get_cons_succ]
          exact gt_trans hgt h0
        · intro i hi
          cases i with
          | zero =>
            simp only [List.get_cons_succ, List.get_cons_zero]
            exact le_of_lt hgt
          | succ i =>
            simp only [List.get_cons_succ]
            exact hmax i (by simpa using hi)
        · intro i hi hlt
          cases i with
          | zero =>
            simp only [List.get_cons_succ, List.get_cons_zero]
            exact hgt
          | succ i =>
            simp only [List.get_cons_succ]
            exact hstrict i (by simpa using hi) (by omega)
        · rw [List.foldl_cons, hstep, heq]
          simp
    · have hstep : (let sim := cosine_similarity e (c.embedding.getD [])
          if sim > b.2 then (c.cluster_id, sim) else b) = b := by
        show (if cosine_similarity e (c.embedding.getD []) > b.2
              then (c.cluster_id, cosine_similarity e (c.embedding.getD [])) else b) = b
        rw [if_neg h0]
      rcases ih b with ⟨hall, heq⟩ | ⟨j, hj, hgt, hmax, hstrict, heq⟩
      · refine Or.inl ⟨?_, ?_⟩
        · intro c2 hc2
          rcases List.mem_cons.mp hc2 with rfl | hc2
          · exact not_lt.mp h0
          · exact hall c2 hc2
        · rw [List.foldl_cons, hstep, heq]
      · refine Or.inr ⟨j + 1, by simpa using Nat.succ_lt_succ hj, ?_, ?_, ?_, ?_⟩
        · simp only [List.get_cons_succ]
          exact hgt
        · intro i hi
          cases i with
          | zero =>
            simp only [List.get_cons_succ, List.get_cons_zero]
            exact le_of_lt (lt_of_le_of_lt (not_lt.mp h0) hgt)
          | succ i =>
            simp only [List.get_cons_succ]
            exact hmax i (by simpa using hi)
        · intro i hi hlt
          cases i with
          | zero =>
            simp only [List.get_cons_succ, List.get_cons_zero]
            exact lt_of_le_of_lt (not_lt.mp h0) hgt
          | succ i =>
            simp only [List.get_cons_succ]
            exact hstrict i (by simpa using hi) (by omega)
        · rw [List.foldl_cons, hstep, heq]
          simp

theorem exists_first_argmax (e : List ℚ) :
    ∀ metas : List ClusterMeta, metas ≠ [] →
    ∃ j, ∃ hj : j < metas.length,
      (∀ i, ∀ hi : i < metas.length,
        cosine_similarity e ((metas.get ⟨i, hi⟩).embedding.getD []) ≤
          cosine_similarity e ((metas.get ⟨j, hj⟩).embedding.getD [])) ∧
      (∀ i, ∀ hi : i < metas.length, i < j →
        cosine_similarity e ((metas.get ⟨i, hi⟩).embedding.getD []) <
          cosine_similarity e ((metas.get ⟨j, hj⟩).embedding.getD [])) := by
  intro metas
  induction metas with
  | nil => intro h; exact absurd rfl h
  | cons c cs ih =>
    intro _
    cases hcs : cs with
    | nil =>
      refine ⟨0, by simp, ?_, ?_⟩
      · intro i hi
        cases i with
        | zero => simp
        | succ i =>
          exfalso
          simp only [List.length_singleton] at hi
          omega
      · intro i hi hlt; omega
    | cons c2 cs2 =>
      subst hcs
      obtain ⟨j, hj, hmax, hstrict⟩ := ih (by simp)
      by_cases hcmp : cosine_similarity e ((( c2 :: cs2).get ⟨j, hj⟩).embedding.getD []) >
          cosine_similarity e (c.embedding.getD [])
      · refine ⟨j + 1, by simpa using Nat.succ_lt_succ hj, ?_, ?_⟩
        · intro i hi
          cases i with
          | zero =>
            simp only [List.get_cons_succ, List.get_cons_zero]
            exact le_of_lt hcmp
          | succ i =>
            simp only [List.get_cons_succ]
            exact hmax i (by simpa using hi)
        · intro i hi hlt
          cases i with
          | zero =>
            simp only [List.get_cons_succ, List.get_cons_zero]
            exact hcmp
          | succ i =>
            simp only [List.get_cons_succ]
            exact hstrict i (by simpa using hi) (by omega)
      · refine ⟨0, by simp, ?_, ?_⟩
        · intro i hi
          cases i with
          | zero => simp
          | succ i =>
            simp only [List.get_cons_succ, List.get_cons_zero]
            exact le_trans (hmax i (by simpa using hi)) (not_lt.mp hcmp)
        · intro i hi hlt; omega

theorem embTruthy_true_of_some (c : ClusterMeta) (v : List ℚ) (hv : c.embedding = some v)
    (hne : v ≠ []) : embTruthy c.embedding = true := by
  rw [hv]
  unfold embTruthy
  simpa using hne

theorem assignTarget_some (valid : List ClusterMeta) (g : SemanticGroup) (e : List ℚ)
    (hge : g.embedding = some e) (hne : e ≠ []) :
    assignTarget valid g =
      if (bestCluster e valid).2 ≥ ((clustering_similarity_threshold : ℚ) : ℝ)
      then (bestCluster e valid).1 else genericId := by
  unfold assignTarget
  rw [hge]
  show (if e = [] then genericId
        else if (bestCluster e valid).2 ≥ ((clustering_similarity_threshold : ℚ) : ℝ)
             then (bestCluster e valid).1 else genericId) = _
  rw [if_neg hne]

theorem assignTarget_falsy (valid : List ClusterMeta) (g : SemanticGroup)
    (h : g.embedding = none ∨ g.embedding = some []) :
    assignTarget valid g = genericId := by
  unfold assignTarget
  rcases h with h | h
  · rw [h]
  · rw [h]
    show (if ([] : List ℚ) = [] then genericId else _) = genericId
    rw [if_pos rfl]

theorem neg_one_lt_threshold : (-1 : ℝ) < ((clustering_similarity_threshold : ℚ) : ℝ) := by
  unfold clustering_similarity_threshold
  push_cast
  norm_num

/-- C3.  The assigner tracks the maximum similarity over the candidates in
discovery order, keeping the first-seen index on ties, and assigns the
group to that candidate exactly when the maximum reaches the configured
threshold (otherwise the generic bucket); a group with a falsy embedding,
or any group when no candidate has a truthy embedding, goes to the generic
bucket. -/
theorem C3_assignment_first_argmax_threshold :
    (∀ (metas : List ClusterMeta) (g : SemanticGroup) (e : List ℚ),
      g.embedding = some e → e ≠ [] → metas ≠ [] →
      (∀ c ∈ metas, ∃ v, c.embedding = some v ∧ v ≠ []) →
      ∃ j, ∃ hj : j < metas.length,
        (∀ i, ∀ hi : i < metas.length,
          cosine_similarity e ((metas.get ⟨i, hi⟩).embedding.getD []) ≤
            cosine_similarity e ((metas.get ⟨j, hj⟩).embedding.getD [])) ∧
        (∀ i, ∀ hi : i < metas.length, i < j →
          cosine_similarity e ((metas.get ⟨i, hi⟩).embedding.getD []) <
            cosine_similarity e ((metas.get ⟨j, hj⟩).embedding.getD [])) ∧
        assignTarget (metas.filter (fun c => embTruthy c.embedding)) g =
          (if cosine_similarity e ((metas.get ⟨j, hj⟩).embedding.getD []) ≥
              ((clustering_similarity_threshold : ℚ) : ℝ)
           then (metas.get ⟨j, hj⟩).cluster_id else genericId)) ∧
    (∀ (metas : List ClusterMeta) (g : SemanticGroup),
      g.embedding = none ∨ g.embedding = some [] →
      assignTarget (metas.filter (fun c => embTruthy c.embedding)) g = genericId) ∧
    (∀ (metas : List ClusterMeta) (g : SemanticGroup),
      (∀ c ∈ metas, c.embedding = none ∨ c.embedding = some []) →
      assignTarget (metas.filter (fun c => embTruthy c.embedding)) g = genericId) := by
  refine ⟨?_, ?_, ?_⟩
  · intro metas g e hge hne hmet hall
    have hfilter : metas.filter (fun c => embTruthy c.embedding) = metas := by
      rw [List.filter_eq_self]
      intro c hc
      obtain ⟨v, hv, hvne⟩ := hall c hc
      exact embTruthy_true_of_some c v hv hvne
    rw [hfilter]
    have htarget := assignTarget_some metas g e hge hne
    rcases bestCluster_spec e metas (genericId, -1) with ⟨hall2, heq⟩ | ⟨j, hj, _, hmax, hstrict, heq⟩
    · obtain ⟨j, hj, hmax, hstrict⟩ := exists_first_argmax e metas hmet
      refine ⟨j, hj, hmax, hstrict, ?_⟩
      have hjle : cosine_similarity e ((metas.get ⟨j, hj⟩).embedding.getD []) ≤ -1 :=
        hall2 (metas.get ⟨j, hj⟩) (List.get_mem metas j hj)
      have hlt : ¬(cosine_similarity e ((metas.get ⟨j, hj⟩).embedding.getD []) ≥
          ((clustering_similarity_threshold : ℚ) : ℝ)) := by
        push_neg
        exact lt_of_le_of_lt hjle neg_one_lt_threshold
      rw [if_neg hlt, htarget]
      have hbest : bestCluster e metas = (genericId, -1) := heq
      rw [hbest]
      have hlt2 : ¬((-1 : ℝ) ≥ ((clustering_similarity_threshold : ℚ) : ℝ)) :=
        not_le.mpr neg_one_lt_threshold
      rw [if_neg hlt2]
    · refine ⟨j, hj, hmax, hstrict, ?_⟩
      rw [htarget]
      have hbest : bestCluster e metas =
          ((metas.get ⟨j, hj⟩).cluster_id,
            cosine_similarity e ((metas.get ⟨j, hj⟩).embedding.getD [])) := heq
      rw [hbest]
  · intro metas g h
    exact assignTarget_falsy _ g h
  · intro metas g hall
    have hfilter : metas.filter (fun c => embTruthy c.embedding) = [] := by
      rw [List.filter_eq_nil_iff]
      intro c hc
      rcases hall c hc with h | h <;> simp [embTruthy, h]
    rw [hfilter]
    exact assignTarget_nil g

/-! ## Lemmas: the assignment map and decompression partition -/

theorem stampedItems_append (l1 l2 : List SemanticGroup) :
    stampedItems (l1 ++ l2) = stampedItems l1 ++ stampedItems l2 := by
  unfold stampedItems
  rw [List.map_append, List.flatten_append]

theorem stampedItems_perm (l1 l2 : List SemanticGroup) (h : List.Perm l1 l2) :
    List.Perm (stampedItems l1) (stampedItems l2) :=
  List.Perm.flatten (h.map _)

theorem stampedItems_map_proj (gs : List SemanticGroup) :
    (stampedItems gs).map projItem = (gs.map (fun g => g.items)).flatten :=
  stamped_map_proj gs

theorem stampedItems_flatten_map (L : List (String × List SemanticGroup)) :
    (L.map (fun kv => stampedItems kv.2)).flatten =
      stampedItems ((L.map Prod.snd).flatten) := by
  induction L with
  | nil => rfl
  | cons kv rest ih =>
    simp only [List.map_cons, List.flatten_cons, ih, stampedItems_append]

theorem contains_true_iff (l : List String) (k : String) :
    l.contains k = true ↔ k ∈ l := by
  rw [List.contains_iff_exists_mem_beq]
  constructor
  · rintro ⟨b, hb, hkb⟩
    rw [eq_of_beq hkb]
    exact hb
  · intro h
    exact ⟨k, h, by simp⟩

theorem contains_false_of_nmem (l : List String) (k : String) (h : k ∉ l) :
    l.contains k = false := by
  cases hcb : l.contains k with
  | false => rfl
  | true => exact absurd ((contains_true_iff l k).mp hcb) h

theorem appendAt_keys (m : List (String × List SemanticGroup)) (k : String)
    (g : SemanticGroup) : (appendAt m k g).map Prod.fst = m.map Prod.fst := by
  induction m with
  | nil => rfl
  | cons kv rest ih =>
    obtain ⟨k2, gs⟩ := kv
    unfold appendAt
    by_cases h : k2 = k
    · rw [if_pos h]
      rfl
    · rw [if_neg h]
      simp only [List.map_cons, ih]

theorem appendAt_flatten (m : List (String × List SemanticGroup)) (k : String)
    (g : SemanticGroup) (hk : k ∈ m.map Prod.fst) :
    List.Perm (((appendAt m k g).map Prod.snd).flatten)
      ((m.map Prod.snd).flatten ++ [g]) := by
  induction m with
  | nil => simp at hk
  | cons kv rest ih =>
    obtain ⟨k2, gs⟩ := kv
    unfold appendAt
    by_cases h : k2 = k
    · rw [if_pos h]
      simp only [List.map_cons, List.flatten_cons]
      rw [List.append_assoc, List.append_assoc]
      exact List.Perm.append_left gs List.perm_append_comm
    · rw [if_neg h]
      simp only [List.map_cons, List.flatten_cons]
      have hk2 : k ∈ rest.map Prod.fst := by
        rw [List.map_cons] at hk
        rcases List.mem_cons.mp hk with h1 | h1
        · exact absurd h1.symm h
        · exact h1
      rw [List.append_assoc]
      exact List.Perm.append_left gs (ih hk2)

theorem foldl_appendAt_keys (f : SemanticGroup → String) :
    ∀ (gs : List SemanticGroup) (m : List (String × List SemanticGroup)),
      ((gs.foldl (fun m2 g => appendAt m2 (f g) g) m).map Prod.fst) = m.map Prod.fst := by
  intro gs
  induction gs with
  | nil => intro m; rfl
  | cons g gs ih =>
    intro m
    rw [List.foldl_cons, ih (appendAt m (f g) g), appendAt_keys]

theorem foldl_appendAt_flatten (f : SemanticGroup → String) :
    ∀ (gs : List SemanticGroup) (m : List (String × List SemanticGroup)),
      (∀ g ∈ gs, f g ∈ m.map Prod.fst) →
      List.Perm
        (((gs.foldl (fun m2 g => appendAt m2 (f g) g) m).map Prod.snd).flatten)
        ((m.map Prod.snd).flatten ++ gs) := by
  intro gs
  induction gs with
  | nil => intro m _; simp
  | cons g gs ih =>
    intro m hmem
    rw [List.foldl_cons]
    have h1 : f g ∈ m.map Prod.fst := hmem g (List.mem_cons_self g gs)
    have h2 : ∀ g2 ∈ gs, f g2 ∈ (appendAt m (f g) g).map Prod.fst := by
      intro g2 hg2
      rw [appendAt_keys]
      exact hmem g2 (List.mem_cons_of_mem g hg2)
    refine (ih (appendAt m (f g) g) h2).trans ?_
    refine ((appendAt_flatten m (f g) g h1).append_right gs).trans ?_
    rw [List.append_assoc]
    exact List.Perm.refl _

theorem dictFold_eq (metas : List ClusterMeta) :
    ∀ m0 : List (String × List SemanticGroup),
      (∀ c ∈ metas, c.cluster_id ∉ m0.map Prod.fst) →
      (metas.map (fun c => c.cluster_id)).Nodup →
      metas.foldl (fun m c => dictAddEmpty m c.cluster_id) m0 =
        m0 ++ metas.map (fun c => (c.cluster_id, ([] : List SemanticGroup))) := by
  induction metas with
  | nil => intro m0 _ _; simp
  | cons c metas ih =>
    intro m0 hnin hnd
    rw [List.foldl_cons]
    have hstep : dictAddEmpty m0 c.cluster_id = m0 ++ [(c.cluster_id, [])] := by
      unfold dictAddEmpty
      rw [contains_false_of_nmem _ _ (hnin c (List.mem_cons_self c metas))]
      simp
    rw [hstep]
    simp only [List.map_cons, List.nodup_cons] at hnd
    have hnin2 : ∀ c2 ∈ metas,
        c2.cluster_id ∉ (m0 ++ [(c.cluster_id, ([] : List SemanticGroup))]).map Prod.fst := by
      intro c2 hc2
      rw [List.map_append]
      intro hmem
      rcases List.mem_append.mp hmem with h | h
      · exact hnin c2 (List.mem_cons_of_mem c hc2) h
      · have he : c2.cluster_id = c.cluster_id := by simpa using h
        exact hnd.1 (by rw [← he]; exact List.mem_map_of_mem _ hc2)
    rw [ih (m0 ++ [(c.cluster_id, [])]) hnin2 hnd.2]
    simp [List.append_assoc]

theorem dictInit_eq (metas : List ClusterMeta)
    (hnd : (metas.map (fun c => c.cluster_id)).Nodup)
    (hgen : ∀ c ∈ metas, c.cluster_id ≠ genericId) :
    dictInit metas =
      metas.map (fun c => (c.cluster_id, ([] : List SemanticGroup))) ++ [(genericId, [])] := by
  unfold dictInit
  rw [dictFold_eq metas [] (by simp) hnd, List.nil_append]
  unfold dictAddEmpty
  have hnmem : genericId ∉
      ((metas.map (fun c => (c.cluster_id, ([] : List SemanticGroup)))).map Prod.fst) := by
    rw [List.map_map]
    intro hmem
    obtain ⟨c, hc, he⟩ := List.mem_map.mp hmem
    exact hgen c hc he
  rw [contains_false_of_nmem _ _ hnmem]
  simp

theorem bestCluster_fst_mem (e : List ℚ) (valid : List ClusterMeta) :
    (bestCluster e valid).1 = genericId ∨
      (bestCluster e valid).1 ∈ valid.map (fun c => c.cluster_id) := by
  rcases bestCluster_spec e valid (genericId, -1) with ⟨_, hfold⟩ | ⟨j, hj, _, _, _, hfold⟩
  · left
    have hb : bestCluster e valid = (genericId, -1) := hfold
    rw [hb]
  · right
    have hb : bestCluster e valid = ((valid.get ⟨j, hj⟩).cluster_id,
        cosine_similarity e ((valid.get ⟨j, hj⟩).embedding.getD [])) := hfold
    rw [hb]
    exact List.mem_map_of_mem _ (valid.get_mem j hj)

theorem assignTarget_mem_gen (valid : List ClusterMeta) (g : SemanticGroup) :
    assignTarget valid g = genericId ∨
      assignTarget valid g ∈ valid.map (fun c => c.cluster_id) := by
  rcases hge : g.embedding with _ | e
  · left; exact assignTarget_falsy valid g (Or.inl hge)
  · by_cases hne : e = []
    · left; exact assignTarget_falsy valid g (Or.inr (hne ▸ hge))
    · rw [assignTarget_some valid g e hge hne]
      by_cases hth : (bestCluster e valid).2 ≥ ((clustering_similarity_threshold : ℚ) : ℝ)
      · rw [if_pos hth]
        exact bestCluster_fst_mem e valid
      · left; rw [if_neg hth]

theorem lookupD_cons_eq (kv : String × List ClusterItem)
    (m : List (String × List ClusterItem)) (k : String) (h : kv.1 = k) :
    lookupD (kv :: m) k = kv.2 := by
  unfold lookupD
  rw [List.find?_cons_of_pos _ (by simp [h])]

theorem lookupD_cons_ne (kv : String × List ClusterItem)
    (m : List (String × List ClusterItem)) (k : String) (h : kv.1 ≠ k) :
    lookupD (kv :: m) k = lookupD m k := by
  unfold lookupD
  rw [List.find?_cons_of_neg _ (by simp [h])]

theorem lookupD_append_of_nmem (B m : List (String × List ClusterItem)) (k : String)
    (h : k ∉ B.map Prod.fst) : lookupD (B ++ m) k = lookupD m k := by
  induction B with
  | nil => rfl
  | cons kv B ih =>
    simp only [List.map_cons, List.mem_cons, not_or] at h
    rw [List.cons_append, lookupD_cons_ne _ _ _ (fun he => h.1 he.symm)]
    exact ih h.2

theorem emit_flatten (glist : List ClusterItem) :
    ∀ (metas : List ClusterMeta) (B : List (String × List ClusterItem)),
      B.map Prod.fst = metas.map (fun c => c.cluster_id) →
      (metas.map (fun c => c.cluster_id)).Nodup →
      (((metas.filterMap
          ((fun m =>
            if lookupD (B ++ [(genericId, glist)]) m.cluster_id = [] then none
            else some { cluster_id := m.cluster_id, theme := m.theme, summary := m.summary,
                        items := lookupD (B ++ [(genericId, glist)]) m.cluster_id,
                        embedding := m.embedding }) :
            ClusterMeta → Option ClusterResult)).map
        (fun c => c.items)).flatten) = ((B.map Prod.snd).flatten) := by
  intro metas
  induction metas with
  | nil =>
    intro B hB _
    rw [List.map_eq_nil_iff.mp hB]
    rfl
  | cons c metas ih =>
    intro B hB hnd
    cases B with
    | nil => simp at hB
    | cons b B =>
      simp only [List.map_cons, List.cons.injEq] at hB
      obtain ⟨hb1, hB2⟩ := hB
      simp only [List.map_cons, List.nodup_cons] at hnd
      obtain ⟨hcnin, hnd2⟩ := hnd
      have hlh : lookupD ((b :: B) ++ [(genericId, glist)]) c.cluster_id = b.2 := by
        rw [List.cons_append]
        exact lookupD_cons_eq b _ c.cluster_id hb1
      have htail : ∀ c2 ∈ metas,
          lookupD ((b :: B) ++ [(genericId, glist)]) c2.cluster_id =
            lookupD (B ++ [(genericId, glist)]) c2.cluster_id := by
        intro c2 h2
        rw [List.cons_append]
        apply lookupD_cons_ne
        rw [hb1]
        intro he
        exact hcnin (by rw [he]; exact List.mem_map_of_mem _ h2)
      set f2 : ClusterMeta → Option ClusterResult := (fun m =>
        if lookupD ((b :: B) ++ [(genericId, glist)]) m.cluster_id = [] then none
        else some { cluster_id := m.cluster_id, theme := m.theme, summary := m.summary,
                    items := lookupD ((b :: B) ++ [(genericId, glist)]) m.cluster_id,
                    embedding := m.embedding }) with hf2
      have hcongr : metas.filterMap f2 =
          metas.filterMap
            ((fun m =>
              if lookupD (B ++ [(genericId, glist)]) m.cluster_id = [] then none
              else some { cluster_id := m.cluster_id, theme := m.theme, summary := m.summary,
                          items := lookupD (B ++ [(genericId, glist)]) m.cluster_id,
                          embedding := m.embedding }) :
              ClusterMeta → Option ClusterResult) := by
        rw [hf2]
        apply List.filterMap_congr
        intro m hm
        rw [htail m hm]
      by_cases hb2 : b.2 = []
      · have hval : (if lookupD ((b :: B) ++ [(genericId, glist)]) c.cluster_id = [] then none
            else some { cluster_id := c.cluster_id, theme := c.theme, summary := c.summary,
                        items := lookupD ((b :: B) ++ [(genericId, glist)]) c.cluster_id,
                        embedding := c.embedding } : Option ClusterResult) = none := by
          rw [hlh, if_pos hb2]
        have hfc : f2 c = none := hval
        rw [List.filterMap_cons_none hfc]
        rw [hcongr, ih B hB2 hnd2]
        rw [List.map_cons, List.flatten_cons, hb2, List.nil_append]
      · have hval : (if lookupD ((b :: B) ++ [(genericId, glist)]) c.cluster_id = [] then none
            else some { cluster_id := c.cluster_id, theme := c.theme, summary := c.summary,
                        items := lookupD ((b :: B) ++ [(genericId, glist)]) c.cluster_id,
                        embedding := c.embedding } : Option ClusterResult) =
            some { cluster_id := c.cluster_id, theme := c.theme, summary := c.summary,
                   items := b.2, embedding := c.embedding } := by
          rw [hlh, if_neg hb2]
        have hfc : f2 c =
            some { cluster_id := c.cluster_id, theme := c.theme, summary := c.summary,
                   items := b.2, embedding := c.embedding } := hval
        rw [List.filterMap_cons_some hfc]
        rw [hcongr]
        simp only [List.map_cons, List.flatten_cons]
        rw [ih B hB2 hnd2]

theorem assign_decompress_partition (gs : List SemanticGroup) (metas : List ClusterMeta)
    (hnd : (metas.map (fun c => c.cluster_id)).Nodup)
    (hgen : ∀ c ∈ metas, c.cluster_id ≠ genericId) :
    List.Perm (((buildClusterResults metas (_decompress (_assign_groups gs metas))).map
        (fun c => c.items)).flatten)
      (stampedItems gs) := by
  have hgennin : genericId ∉ metas.map (fun c => c.cluster_id) := by
    intro hmem
    obtain ⟨c, hc, he⟩ := List.mem_map.mp hmem
    exact hgen c hc he
  have hm0 : dictInit metas =
      metas.map (fun c => (c.cluster_id, ([] : List SemanticGroup))) ++ [(genericId, [])] :=
    dictInit_eq metas hnd hgen
  have hm0keys : (dictInit metas).map Prod.fst =
      metas.map (fun c => c.cluster_id) ++ [genericId] := by
    rw [hm0, List.map_append, List.map_map]
    rfl
  have hm0flat : ((dictInit metas).map Prod.snd).flatten = [] := by
    rw [hm0, List.flatten_eq_nil_iff]
    intro x hx
    rw [List.map_append, List.map_map] at hx
    rcases List.mem_append.mp hx with h | h
    · obtain ⟨c, _, he⟩ := List.mem_map.mp h
      rw [← he]
      rfl
    · simpa using h
  have hcm : _assign_groups gs metas =
      gs.foldl (fun m2 g => appendAt m2
        (assignTarget (metas.filter (fun c => embTruthy c.embedding)) g) g)
        (dictInit metas) := rfl
  have hmem : ∀ g ∈ gs,
      assignTarget (metas.filter (fun c => embTruthy c.embedding)) g ∈
        (dictInit metas).map Prod.fst := by
    intro g _
    rw [hm0keys]
    rcases assignTarget_mem_gen (metas.filter (fun c => embTruthy c.embedding)) g with h | h
    · rw [h]
      exact List.mem_append_right _ (List.mem_singleton.mpr rfl)
    · apply List.mem_append_left
      obtain ⟨c, hc, he⟩ := List.mem_map.mp h
      rw [← he]
      exact List.mem_map_of_mem _ (List.mem_of_mem_filter hc)
  have hkeys : (_assign_groups gs metas).map Prod.fst =
      metas.map (fun c => c.cluster_id) ++ [genericId] := by
    rw [hcm, foldl_appendAt_keys, hm0keys]
  have hflat : List.Perm (((_assign_groups gs metas).map Prod.snd).flatten) gs := by
    rw [hcm]
    refine (foldl_appendAt_flatten _ gs (dictInit metas) hmem).trans ?_
    rw [hm0flat, List.nil_append]
  obtain ⟨C, D, hsplit, hCfst, hDfst⟩ := List.map_eq_append_iff.mp hkeys
  obtain ⟨d, hD⟩ : ∃ d, D = [d] := by
    cases D with
    | nil => simp at hDfst
    | cons d D2 =>
      cases D2 with
      | nil => exact ⟨d, rfl⟩
      | cons d2 D3 => simp at hDfst
  subst hD
  have hd1 : d.1 = genericId := by simpa using hDfst
  have hcit : _decompress (_assign_groups gs metas) =
      _decompress C ++ [(genericId, stampedItems d.2)] := by
    rw [hsplit]
    unfold _decompress
    rw [List.map_append]
    simp [hd1]
  have hBfst : (_decompress C).map Prod.fst = metas.map (fun c => c.cluster_id) := by
    unfold _decompress
    rw [List.map_map]
    exact hCfst
  have hgenlook : lookupD (_decompress C ++ [(genericId, stampedItems d.2)]) genericId =
      stampedItems d.2 := by
    rw [lookupD_append_of_nmem _ _ _ (by rw [hBfst]; exact hgennin)]
    exact lookupD_cons_eq _ _ _ rfl
  have hbuild : (((buildClusterResults metas
        (_decompress (_assign_groups gs metas))).map (fun c => c.items)).flatten) =
      ((((_decompress C).map Prod.snd).flatten) ++ stampedItems d.2) := by
    rw [hcit]
    unfold buildClusterResults
    rw [List.map_append, List.flatten_append]
    congr 1
    · exact emit_flatten (stampedItems d.2) metas (_decompress C) hBfst hnd
    · rw [hgenlook]
      by_cases hg : stampedItems d.2 = []
      · rw [if_pos hg]
        simp [hg]
      · rw [if_neg hg]
        simp
  have hdecsnd : (((_decompress C).map Prod.snd).flatten) =
      stampedItems ((C.map Prod.snd).flatten) := by
    unfold _decompress
    rw [List.map_map]
    exact stampedItems_flatten_map C
  rw [hbuild, hdecsnd, ← stampedItems_append]
  apply stampedItems_perm
  have hsnds : ((_assign_groups gs metas).map Prod.snd).flatten =
      ((C.map Prod.snd).flatten) ++ d.2 := by
    rw [hsplit, List.map_append, List.flatten_append]
    simp
  rw [← hsnds]
  exact hflat

theorem ok_result_is_computed (env : Env) (store : Store) (session : HistorySession)
    (user_id : Nat) (force : Bool) (r : SessionClusteringResponse)
    (hmiss : force = true ∨ loadPM store (canonicalIdentifier user_id session) = none)
    (hok : (cluster_session env store session user_id force).result = Except.ok r) :
    r = computeResponse env session user_id := by
  rw [cluster_session_miss env store session user_id force hmiss] at hok
  rw [computePath_result] at hok
  rcases hsv : (savePM env.createSessionFault store user_id
      (computeResponse env session user_id) force).2 with _ | n
  · rw [hsv] at hok
    simp at hok
  · rw [hsv] at hok
    simp only [Option.isSome_some, if_true] at hok
    injection hok with hok
    exact hok.symm

/-! ### The duplicated-candidate-id run -/

theorem dotQ_one : dotQ [(1 : ℚ)] [(1 : ℚ)] = 1 := by
  show (1 : ℚ) * 1 + 0 = 1
  norm_num

theorem l2norm_one : l2norm [(1 : ℚ)] = 1 := by
  unfold l2norm
  rw [show ((dotQ [(1 : ℚ)] [(1 : ℚ)] : ℚ) : ℝ) = 1 by rw [dotQ_one]; norm_num]
  exact Real.sqrt_one

theorem cos_one : cosine_similarity [(1 : ℚ)] [(1 : ℚ)] = 1 := by
  unfold cosine_similarity
  rw [l2norm_one]
  rw [if_neg (by norm_num)]
  rw [dotQ_one]
  norm_num

theorem embed_clusters_dup :
    (_embed_clusters witEnvDupId.embed (_identify_clusters witEnvDupId.llm)).1 =
      [dupMeta, dupMeta] := by
  decide

theorem embed_groups_dup :
    (_embed_groups witEnvDupId.embed (_create_groups witSessionA)).1 = [dupGroup] := by
  decide

theorem bestCluster_dup : bestCluster [(1 : ℚ)] [dupMeta, dupMeta] = ("a", 1) := by
  unfold bestCluster
  show (if cosine_similarity [(1 : ℚ)] [(1 : ℚ)] >
          ((if cosine_similarity [(1 : ℚ)] [(1 : ℚ)] > ((genericId, (-1 : ℝ)) : String × ℝ).2
            then (("a" : String), cosine_similarity [(1 : ℚ)] [(1 : ℚ)])
            else (genericId, -1)) : String × ℝ).2
        then (("a" : String), cosine_similarity [(1 : ℚ)] [(1 : ℚ)])
        else (if cosine_similarity [(1 : ℚ)] [(1 : ℚ)] > ((genericId, (-1 : ℝ)) : String × ℝ).2
              then (("a" : String), cosine_similarity [(1 : ℚ)] [(1 : ℚ)])
              else (genericId, -1))) = (("a" : String), (1 : ℝ))
  rw [cos_one]
  norm_num

theorem assignTarget_dup : assignTarget [dupMeta, dupMeta] dupGroup = "a" := by
  rw [assignTarget_some [dupMeta, dupMeta] dupGroup [(1 : ℚ)] rfl (by decide)]
  rw [bestCluster_dup]
  rw [if_pos (by
    show (1 : ℝ) ≥ ((clustering_similarity_threshold : ℚ) : ℝ)
    unfold clustering_similarity_threshold
    push_cast
    norm_num)]

theorem assign_groups_dup :
    _assign_groups [dupGroup] [dupMeta, dupMeta] = [("a", [dupGroup]), (genericId, [])] := by
  show appendAt (dictInit [dupMeta, dupMeta])
      (assignTarget [dupMeta, dupMeta] dupGroup) dupGroup =
    [("a", [dupGroup]), (genericId, [])]
  rw [assignTarget_dup]
  decide

theorem computeClusters_dup :
    (computeClusters witEnvDupId witSessionA).1 = [dupCluster, dupCluster] := by
  have h1 : (computeClusters witEnvDupId witSessionA).1 =
      buildClusterResults
        (_embed_clusters witEnvDupId.embed (_identify_clusters witEnvDupId.llm)).1
        (_decompress (_assign_groups
          (_embed_groups witEnvDupId.embed (_create_groups witSessionA)).1
          (_embed_clusters witEnvDupId.embed (_identify_clusters witEnvDupId.llm)).1)) := rfl
  rw [h1, embed_clusters_dup, embed_groups_dup, assign_groups_dup]
  decide

theorem response_dup :
    computeResponse witEnvDupId witSessionA 1 =
      { session_identifier := "u1:s1", session_start_time := 0, session_end_time := 9,
        clusters := [dupCluster, dupCluster] } := by
  unfold computeResponse
  rw [computeClusters_dup]
  rfl

theorem run_dup :
    (cluster_session witEnvDupId witStoreEmpty witSessionA 1 true).result =
      Except.ok { session_identifier := "u1:s1", session_start_time := 0,
                  session_end_time := 9, clusters := [dupCluster, dupCluster] } := by
  rw [cluster_session_miss witEnvDupId witStoreEmpty witSessionA 1 true (Or.inl rfl)]
  rw [computePath_result]
  have hsv : (savePM witEnvDupId.createSessionFault witStoreEmpty 1
      (computeResponse witEnvDupId witSessionA 1) true).2.isSome = true := rfl
  rw [if_pos hsv, response_dup]

/-- C10.  On the compute path, whenever the cluster ids of the discovered
(and embedded) theme candidates are pairwise distinct, the item lists of
the returned clusters flatten to a permutation of the stamped group items
(each input item exactly once, stamped with the embedding of the semantic
group it was compressed into, so all items of one group share one
embedding value), and their projections are a permutation of the input
items; without that hypothesis, a duplicated candidate id makes the run
emit the same item list in two `ClusterResult`s. -/
theorem C10_partition_unless_duplicate_ids :
    (∀ (env : Env) (store : Store) (session : HistorySession) (user_id : Nat)
        (force : Bool) (r : SessionClusteringResponse),
      (force = true ∨ loadPM store (canonicalIdentifier user_id session) = none) →
      (cluster_session env store session user_id force).result = Except.ok r →
      ((_embed_clusters env.embed (_identify_clusters env.llm)).1.map
        (fun c => c.cluster_id)).Nodup →
      List.Perm ((r.clusters.map (fun c => c.items)).flatten)
        (stampedItems (_embed_groups env.embed (_create_groups session)).1) ∧
      List.Perm (((r.clusters.map (fun c => c.items)).flatten).map projItem)
        session.items) ∧
    ((cluster_session witEnvDupId witStoreEmpty witSessionA 1 true).result =
        Except.ok { session_identifier := "u1:s1", session_start_time := 0,
                    session_end_time := 9, clusters := [dupCluster, dupCluster] } ∧
      ((_embed_clusters witEnvDupId.embed (_identify_clusters witEnvDupId.llm)).1.map
        (fun c => c.cluster_id)) = ["a", "a"] ∧
      dupCluster.items = [stampItem (some [1]) witItemA] ∧
      witSessionA.items = [witItemA]) := by
  constructor
  · intro env store session user_id force r hmiss hok hnd
    have hr := ok_result_is_computed env store session user_id force r hmiss hok
    subst hr
    have hgen := embed_clusters_no_generic env.embed env.llm
    have hmain := assign_decompress_partition
      (_embed_groups env.embed (_create_groups session)).1
      (_embed_clusters env.embed (_identify_clusters env.llm)).1 hnd hgen
    have hclusters : (computeResponse env session user_id).clusters =
        buildClusterResults (_embed_clusters env.embed (_identify_clusters env.llm)).1
          (_decompress (_assign_groups
            (_embed_groups env.embed (_create_groups session)).1
            (_embed_clusters env.embed (_identify_clusters env.llm)).1)) := rfl
    constructor
    · rw [hclusters]
      exact hmain
    · rw [hclusters]
      refine ((hmain.map projItem)).trans ?_
      rw [stampedItems_map_proj, embed_groups_items]
      exact create_groups_partition session
  · refine ⟨run_dup, ?_, rfl, rfl⟩
    rw [embed_clusters_dup]
    rfl

end CEH
